import Mathlib

/-!
# Rustis — a verification development of the server core

This file shallowly embeds the parts of the Rustis in-memory key/value
server that its specification talks about, and proves (or refutes) the
specification's claims about them.

Conventions of the embedding:

* Rust byte buffers (`&[u8]`, `Bytes`, `BytesMut`) are `List Nat`, each
  element a byte value `< 256`.
* A Rust `String` is represented by the list of bytes of its UTF-8
  encoding (which is exactly what `String` stores).
* A `Cursor<&[u8]>` at position `p` over buffer `buf` is represented by
  the remaining suffix `buf.drop p`; "the cursor of `f` stops where the
  cursor of `g` stops" becomes "`f` and `g` return the same suffix".
* Machine integers (`u64`, `usize`) are `Nat`; where the source checks
  `u64` overflow (the `atoi` decimal parser) the bound `2 ^ 64` appears
  explicitly.  Aside from that check no arithmetic in the modelled code
  can overflow on 64-bit targets.
* Fallible Rust code returns `Except` / `Option`.
-/

namespace Rustis

/-! ## Bytes and strings -/

/-- UTF-8 encoding of a single Unicode code point (as produced by Rust
`String`/`str`; used to move Lean string literals into the byte world). -/
def charUtf8 (c : Nat) : List Nat :=
  if c < 128 then [c]
  else if c < 2048 then [192 + c / 64, 128 + c % 64]
  else if c < 65536 then [224 + c / 4096, 128 + c / 64 % 64, 128 + c % 64]
  else [240 + c / 262144, 128 + c / 4096 % 64, 128 + c / 64 % 64, 128 + c % 64]

/-- The UTF-8 bytes of a string: the representation of a Rust `String`. -/
def strBytes (s : String) : List Nat :=
  s.data.flatMap (fun ch => charUtf8 ch.toNat)

/-- ASCII decimal digit test, `b'0' ..= b'9'`. -/
def isDigitByte (b : Nat) : Bool := 48 ≤ b && b ≤ 57

/-- ASCII lower-casing of one byte.  `str::to_lowercase` agrees with this
byte map on ASCII input; the command names the server compares against are
all ASCII. -/
def asciiLowerByte (b : Nat) : Nat := if 65 ≤ b && b ≤ 90 then b + 32 else b

/-- Model of `str::to_lowercase` (ASCII fragment). -/
def asciiLower (l : List Nat) : List Nat := l.map asciiLowerByte

/-- UTF-8 continuation byte, `0x80 ..= 0xBF`. -/
def utf8Cont (b : Nat) : Bool := 128 ≤ b && b ≤ 191

/-- RFC 3629 UTF-8 validity of a byte sequence: the success condition of
`String::from_utf8` / `str::from_utf8`. -/
def isValidUtf8 : List Nat → Bool
  | [] => true
  | b :: rest =>
    if b < 128 then isValidUtf8 rest
    else if 194 ≤ b && b ≤ 223 then
      match rest with
      | c1 :: r => utf8Cont c1 && isValidUtf8 r
      | [] => false
    else if b = 224 then
      match rest with
      | c1 :: c2 :: r => (160 ≤ c1 && c1 ≤ 191) && utf8Cont c2 && isValidUtf8 r
      | _ => false
    else if (225 ≤ b && b ≤ 236) || (238 ≤ b && b ≤ 239) then
      match rest with
      | c1 :: c2 :: r => utf8Cont c1 && utf8Cont c2 && isValidUtf8 r
      | _ => false
    else if b = 237 then
      match rest with
      | c1 :: c2 :: r => (128 ≤ c1 && c1 ≤ 159) && utf8Cont c2 && isValidUtf8 r
      | _ => false
    else if b = 240 then
      match rest with
      | c1 :: c2 :: c3 :: r =>
        (144 ≤ c1 && c1 ≤ 191) && utf8Cont c2 && utf8Cont c3 && isValidUtf8 r
      | _ => false
    else if 241 ≤ b && b ≤ 243 then
      match rest with
      | c1 :: c2 :: c3 :: r =>
        utf8Cont c1 && utf8Cont c2 && utf8Cont c3 && isValidUtf8 r
      | _ => false
    else if b = 244 then
      match rest with
      | c1 :: c2 :: c3 :: r =>
        (128 ≤ c1 && c1 ≤ 143) && utf8Cont c2 && utf8Cont c3 && isValidUtf8 r
      | _ => false
    else false

/-- ASCII decimal rendering of a natural number, as `write!("{}", val)`
produces for a `u64`. -/
def decBytes (n : Nat) : List Nat :=
  if n = 0 then [48] else (Nat.digits 10 n).reverse.map (· + 48)

/-- Value of a big-endian ASCII digit string. -/
def bedVal (l : List Nat) : Nat := l.foldl (fun a d => 10 * a + (d - 48)) 0

/-- `u64::MAX` as a natural number. -/
def u64Size : Nat := 2 ^ 64

/-- Model of `atoi::atoi::<u64>`: the whole (non-empty) slice must be
decimal digits and the value must fit in a `u64`, otherwise `None`.
(A leading sign byte is treated like any other non-digit; no input in
this development carries one.) -/
def atoiU64 (bs : List Nat) : Option Nat :=
  if bs ≠ [] ∧ bs.all isDigitByte = true ∧ bedVal bs < u64Size then some (bedVal bs)
  else none

/-! ## The wire format (`src/networking/frame.rs`)

`Frame` is the tagged unit exchanged on the wire.  `Simple`/`Error` carry a
Rust `String` (here: its UTF-8 bytes), `Integer` a `u64`, `Bulk` raw bytes. -/

inductive Frame where
  | simple (s : List Nat)
  | error (s : List Nat)
  | integer (n : Nat)
  | bulk (b : List Nat)
  | null
  | array (items : List Frame)

/-- The error type of the frame codec (`frame::Error`), with one extra
case: `unreached` marks the `unimplemented!()` arm of `Frame::parse`
(reaching it aborts the process rather than returning an error). -/
inductive FrameErr where
  | incomplete
  | other (msg : String)
  | unreached
deriving DecidableEq

/-- `b"\r\n"`. -/
def crlf : List Nat := [13, 10]

/-- `get_u8`: consume one byte, `Incomplete` when the cursor is at the end. -/
def getU8 : List Nat → Except FrameErr (Nat × List Nat)
  | [] => .error .incomplete
  | b :: rest => .ok (b, rest)

/-- `peek_u8`: look at one byte without consuming it. -/
def peekU8 : List Nat → Except FrameErr Nat
  | [] => .error .incomplete
  | b :: _ => .ok b

/-- `skip(src, n)`: advance by `n` bytes, `Incomplete` when fewer remain. -/
def skipN (n : Nat) (l : List Nat) : Except FrameErr (List Nat) :=
  if n ≤ l.length then .ok (l.drop n) else .error .incomplete

/-- Index of the first `\r\n` pair in the remaining bytes: the scan of
`get_line` (the source walks `i` from the cursor to `len - 1`, requiring
both `buf[i]` and `buf[i+1]` to exist, which is what the two-element
pattern expresses). -/
def findCrlf : List Nat → Option Nat
  | a :: b :: rest =>
    if a = 13 ∧ b = 10 then some 0 else (findCrlf (b :: rest)).map (· + 1)
  | _ => none

/-- `get_line`: the bytes before the first `\r\n`, cursor moved past it. -/
def getLine (l : List Nat) : Except FrameErr (List Nat × List Nat) :=
  match findCrlf l with
  | some i => .ok (l.take i, l.drop (i + 2))
  | none => .error .incomplete

/-- `get_decimal`: a line parsed by `atoi::<u64>`. -/
def getDecimal (l : List Nat) : Except FrameErr (Nat × List Nat) :=
  match getLine l with
  | .error e => .error e
  | .ok (line, rest) =>
    match atoiU64 line with
    | some v => .ok (v, rest)
    | none => .error (.other "协议错误: 无效的帧格式")

/-- `n` rounds of a checking step threaded through the remaining bytes:
the `for _ in 0..len` loop of `Frame::check` for arrays. -/
def iterListF (step : List Nat → Except FrameErr (List Nat)) :
    Nat → List Nat → Except FrameErr (List Nat)
  | 0, l => .ok l
  | n + 1, l =>
    match step l with
    | .error e => .error e
    | .ok l' => iterListF step n l'

/-- The body of `Frame::check`, abstracted over the recursive call made
for array elements. -/
def checkStep (recur : List Nat → Except FrameErr (List Nat))
    (l : List Nat) : Except FrameErr (List Nat) :=
    match getU8 l with
    | .error e => .error e
    | .ok (b, r) =>
      if b = 43 then
        -- b'+', Simple
        match getLine r with
        | .error e => .error e
        | .ok (_, r') => .ok r'
      else if b = 45 then
        -- b'-', Error
        match getLine r with
        | .error e => .error e
        | .ok (_, r') => .ok r'
      else if b = 58 then
        -- b':', Integer
        match getDecimal r with
        | .error e => .error e
        | .ok (_, r') => .ok r'
      else if b = 36 then
        -- b'$', Bulk / Null
        match peekU8 r with
        | .error e => .error e
        | .ok p =>
          if p = 45 then
            skipN 4 r
          else
            match getDecimal r with
            | .error e => .error e
            | .ok (len, r') => skipN (len + 2) r'
      else if b = 42 then
        -- b'*', Array: check each of the `len` element frames
        match getDecimal r with
        | .error e => .error e
        | .ok (len, r') => iterListF recur len r'
      else .error (.other "协议错误: 无效的帧类型")

/-- `Frame::check`, fuelled.  The fuel only bounds array-nesting depth;
every recursive call consumes at least the one-byte tag, so depth never
exceeds the buffer length and the top-level entry point `Frame.check`
supplies fuel that cannot run out. -/
def checkF : Nat → List Nat → Except FrameErr (List Nat)
  | 0, _ => .error .incomplete
  | fuel + 1, l => checkStep (checkF fuel) l

/-- `n` rounds of a parsing step, collecting the parsed frames: the
`for _ in 0..len` loop of `Frame::parse` for arrays. -/
def iterParseF (step : List Nat → Except FrameErr (Frame × List Nat)) :
    Nat → List Nat → Except FrameErr (List Frame × List Nat)
  | 0, l => .ok ([], l)
  | n + 1, l =>
    match step l with
    | .error e => .error e
    | .ok (f, l') =>
      match iterParseF step n l' with
      | .error e => .error e
      | .ok (fs, l'') => .ok (f :: fs, l'')

/-- `String::from_utf8` on the
`Simple`/`Error` payload is the UTF-8 validity check; its failure is the
source's `"协议错误: 无效的帧格式"` conversion of `FromUtf8Error`.  The
body of `Frame::parse` first, abstracted over the recursive call. -/
def parseStep (recur : List Nat → Except FrameErr (Frame × List Nat))
    (l : List Nat) : Except FrameErr (Frame × List Nat) :=
    match getU8 l with
    | .error e => .error e
    | .ok (b, r) =>
      if b = 43 then
        match getLine r with
        | .error e => .error e
        | .ok (line, r') =>
          if isValidUtf8 line then .ok (.simple line, r')
          else .error (.other "协议错误: 无效的帧格式")
      else if b = 45 then
        match getLine r with
        | .error e => .error e
        | .ok (line, r') =>
          if isValidUtf8 line then .ok (.error line, r')
          else .error (.other "协议错误: 无效的帧格式")
      else if b = 58 then
        match getDecimal r with
        | .error e => .error e
        | .ok (v, r') => .ok (.integer v, r')
      else if b = 36 then
        match peekU8 r with
        | .error e => .error e
        | .ok p =>
          if p = 45 then
            match getLine r with
            | .error e => .error e
            | .ok (line, r') =>
              if line = [45, 49] then .ok (.null, r')
              else .error (.other "协议错误: 无效的帧格式")
          else
            match getDecimal r with
            | .error e => .error e
            | .ok (len, r') =>
              if r'.length < len + 2 then .error .incomplete
              else .ok (.bulk (r'.take len), r'.drop (len + 2))
      else if b = 42 then
        match getDecimal r with
        | .error e => .error e
        | .ok (len, r') =>
          match iterParseF recur len r' with
          | .error e => .error e
          | .ok (items, r'') => .ok (.array items, r'')
      else .error .unreached

/-- `Frame::parse`, fuelled like `checkF`. -/
def parseF : Nat → List Nat → Except FrameErr (Frame × List Nat)
  | 0, _ => .error .incomplete
  | fuel + 1, l => parseStep (parseF fuel) l

/-- `Frame::check` run from the start of a buffer; returns the suffix at
which the cursor stops. -/
def Frame.check (buf : List Nat) : Except FrameErr (List Nat) :=
  checkF (buf.length + 1) buf

/-- `Frame::parse` run from the start of a buffer; returns the decoded
frame and the suffix at which the cursor stops. -/
def Frame.parse (buf : List Nat) : Except FrameErr (Frame × List Nat) :=
  parseF (buf.length + 1) buf


/-! ## The encoder (`src/networking/connection.rs`)

`Connection::write_frame` / `write_value` / `write_decimal`, with the
socket replaced by the list of bytes written.  `write_value` on a nested
`Array` hits `unreachable!()`, which aborts instead of producing bytes:
that arm is `none`. -/

/-- `Connection::write_decimal`. -/
def Connection.writeDecimal (n : Nat) : List Nat := decBytes n ++ crlf

/-- `Connection::write_value`: encodes a literal (non-array) frame;
`Frame::Array` is the `unreachable!()` arm. -/
def Connection.writeValue : Frame → Option (List Nat)
  | .simple s => some (43 :: (s ++ crlf))
  | .error s => some (45 :: (s ++ crlf))
  | .integer n => some (58 :: Connection.writeDecimal n)
  | .null => some [36, 45, 49, 13, 10]
  | .bulk b => some (36 :: (Connection.writeDecimal b.length ++ b ++ crlf))
  | .array _ => none

/-- `Connection::write_frame`: an array writes its `*len` header and then
each element through `write_value`; other frames go straight through
`write_value`. -/
def Connection.writeFrame : Frame → Option (List Nat)
  | .array items =>
    (items.mapM Connection.writeValue).map
      (fun ls => 42 :: (Connection.writeDecimal items.length ++ ls.flatten))
  | f => Connection.writeValue f

/-! ## The argument parser (`src/networking/parse.rs`)

`Parse` wraps the element iterator of an `Array` frame; here the iterator
is the list of elements not yet consumed.  Error messages that the source
builds with `format!` and a `{:?}`-debug of the offending frame are kept
as their fixed prefix (no theorem depends on those texts). -/

inductive ParseError where
  | endOfStream
  | other (msg : String)

/-- `Display` of `ParseError`: how a parse error reads once converted into
a `crate::Error` by the `?` operator. -/
def ParseError.display : ParseError → String
  | .endOfStream => "协议错误: 已经不能读取更多的数据帧"
  | .other msg => msg

/-- `Parse::next_string`: next element coerced to text from `Simple` or
`Bulk` (`str::from_utf8` on the latter). -/
def Parse.nextString : List Frame → Except ParseError (List Nat × List Frame)
  | [] => .error .endOfStream
  | .simple s :: rest => .ok (s, rest)
  | .bulk b :: rest =>
    if isValidUtf8 b then .ok (b, rest) else .error (.other "协议错误: 无效的字符串")
  | _ :: _ => .error (.other "协议错误: 期望是Simple或Bulk帧")

/-- `Parse::next_bytes`: next element as raw bytes from `Simple` or `Bulk`. -/
def Parse.nextBytes : List Frame → Except ParseError (List Nat × List Frame)
  | [] => .error .endOfStream
  | .simple s :: rest => .ok (s, rest)
  | .bulk b :: rest => .ok (b, rest)
  | _ :: _ => .error (.other "协议错误: 期望是Simple或Bulk帧")

/-- `Parse::next_int`: next element as a `u64`, from an `Integer` frame or
decimal text in a `Simple`/`Bulk` frame. -/
def Parse.nextInt : List Frame → Except ParseError (Nat × List Frame)
  | [] => .error .endOfStream
  | .integer v :: rest => .ok (v, rest)
  | .simple s :: rest =>
    match atoiU64 s with
    | some v => .ok (v, rest)
    | none => .error (.other "协议错误: 无效的整数")
  | .bulk b :: rest =>
    match atoiU64 b with
    | some v => .ok (v, rest)
    | none => .error (.other "协议错误: 无效的整数")
  | _ :: _ => .error (.other "协议错误: 期望是Integer, Simple或Bulk帧")

/-- `Parse::is_finish`: asserts that no elements remain. -/
def Parse.isFinish : List Frame → Except ParseError Unit
  | [] => .ok ()
  | _ :: _ => .error (.other "协议错误: 期望是没有帧了, 但数组帧包含多余的帧")

/-! ## Commands (`src/cmd/`)

The decoded command.  Keys, values, channels and messages are byte lists
(Rust `String` / `Bytes`); a SET expiry is a `Duration`, modelled as its
number of milliseconds (`Duration::from_secs(s)` is `1000 * s`,
`Duration::from_millis(m)` is `m`, and `Duration::as_secs` is division by
`1000` — exact for every duration this code constructs). -/

inductive Command where
  | get (key : List Nat)
  | set (key value : List Nat) (expire : Option Nat)
  | publish (channel message : List Nat)
  | subscribe (channels : List (List Nat))
  | unsubscribe (channels : List (List Nat))
  | exitSubscribe
  | ping (msg : Option (List Nat))
  | save
  | del (key : List Nat)
  | unknown (name : List Nat)

/-- `Command::get_name`. -/
def Command.getName : Command → List Nat
  | .set _ _ _ => strBytes "set"
  | .unknown name => name
  | .get _ => strBytes "get"
  | .publish _ _ => strBytes "publish"
  | .subscribe _ => strBytes "subscribe"
  | .unsubscribe _ => strBytes "unsubscribe"
  | .exitSubscribe => strBytes "exitsubscribe"
  | .ping _ => strBytes "ping"
  | .save => strBytes "save"
  | .del _ => strBytes "del"

/-- `Get::decode_get_from_frame`. -/
def Get.decodeGetFromFrame (p : List Frame) :
    Except ParseError ((List Nat) × List Frame) :=
  Parse.nextString p

/-- `Ping::decode_ping_from_frame`. -/
def Ping.decodePingFromFrame (p : List Frame) :
    Except ParseError (Option (List Nat) × List Frame) :=
  match Parse.nextBytes p with
  | .ok (msg, rest) => .ok (some msg, rest)
  | .error .endOfStream => .ok (none, p)
  | .error e => .error e

/-- `Publish::decode_publish_from_frame`. -/
def Publish.decodePublishFromFrame (p : List Frame) :
    Except ParseError ((List Nat × List Nat) × List Frame) :=
  match Parse.nextString p with
  | .error e => .error e
  | .ok (channel, p) =>
    match Parse.nextBytes p with
    | .error e => .error e
    | .ok (message, p) => .ok ((channel, message), p)

/-- `Set::decode_set_from_frame`: key, value, then an optional
`EX seconds` / `PX milliseconds` option (option token case-insensitive). -/
def Set.decodeSetFromFrame (p : List Frame) :
    Except ParseError ((List Nat × List Nat × Option Nat) × List Frame) :=
  match Parse.nextString p with
  | .error e => .error e
  | .ok (key, p) =>
    match Parse.nextBytes p with
    | .error e => .error e
    | .ok (value, p) =>
      match Parse.nextString p with
      | .ok (tok, p') =>
        if asciiLower tok = strBytes "ex" then
          match Parse.nextInt p' with
          | .error e => .error e
          | .ok (seconds, p'') => .ok ((key, value, some (1000 * seconds)), p'')
        else if asciiLower tok = strBytes "px" then
          match Parse.nextInt p' with
          | .error e => .error e
          | .ok (milliseconds, p'') => .ok ((key, value, some milliseconds), p'')
        else
          .error (.other "Currently, the set command only supports EX and PX options")
      | .error e =>
        match e with
        | .endOfStream => .ok ((key, value, none), p)
        | .other msg => .error (.other msg)

/-- The `loop { match parse.next_string() ... }` of the subscribe /
unsubscribe decoders: collect strings until `EndOfStream` (which only
occurs once the iterator is exhausted, so the loop consumes every
remaining element), propagating any other error.  `next_string` is
inlined to make the recursion structural. -/
def collectStrings : List Frame → Except ParseError (List (List Nat) × List Frame)
  | [] => .ok ([], [])
  | .simple s :: rest =>
    match collectStrings rest with
    | .error e => .error e
    | .ok (ss, r) => .ok (s :: ss, r)
  | .bulk b :: rest =>
    if isValidUtf8 b then
      match collectStrings rest with
      | .error e => .error e
      | .ok (ss, r) => .ok (b :: ss, r)
    else .error (.other "协议错误: 无效的字符串")
  | _ :: _ => .error (.other "协议错误: 期望是Simple或Bulk帧")

/-- `Subscribe::decode_subscribe_from_frame`: one mandatory channel, then
any further channels. -/
def Subscribe.decodeSubscribeFromFrame (p : List Frame) :
    Except ParseError (List (List Nat) × List Frame) :=
  match Parse.nextString p with
  | .error e => .error e
  | .ok (first, p) =>
    match collectStrings p with
    | .error e => .error e
    | .ok (rest, p) => .ok (first :: rest, p)

/-- `Unsubscribe::decode_unsubscribe_from_frame`: zero or more channels. -/
def Unsubscribe.decodeUnsubscribeFromFrame (p : List Frame) :
    Except ParseError (List (List Nat) × List Frame) :=
  collectStrings p

/-- Modelled from the spec: `ExitSubscribe::decode_exit_subscribe_from_frame`
is declared in `cmd/mod.rs` but its definition (in `cmd/subscribe.rs`) is
not among the provided sources.  The spec describes the command as the
argument-less "mode-exit sentinel", so decoding consumes nothing and
cannot fail. -/
def ExitSubscribe.decodeExitSubscribeFromFrame (p : List Frame) :
    Except ParseError (Unit × List Frame) :=
  .ok ((), p)

/-- `Save::decode_save_from_frame`. -/
def Save.decodeSaveFromFrame : Except ParseError Unit := .ok ()

/-- `Del::decode_del_from_frame`. -/
def Del.decodeDelFromFrame (p : List Frame) :
    Except ParseError ((List Nat) × List Frame) :=
  Parse.nextString p

/-- `Command::decode_cmd_from_frame`: the frame must be an array; its
first element is the case-insensitive command name; unrecognized names
return `Unknown` immediately (skipping the surplus-token check), all
other commands are checked for surplus tokens with `is_finish`.  Errors
are the `crate::Error` strings the `?` operator produces. -/
def Command.decodeCmdFromFrame (frame : Frame) : Except String Command :=
  match frame with
  | .array items =>
    match Parse.nextString items with
    | .error e => .error e.display
    | .ok (name, p) =>
      let cmdName := asciiLower name
      if cmdName = strBytes "get" then
        match Get.decodeGetFromFrame p with
        | .error e => .error e.display
        | .ok (key, p) =>
          match Parse.isFinish p with
          | .error e => .error e.display
          | .ok _ => .ok (.get key)
      else if cmdName = strBytes "ping" then
        match Ping.decodePingFromFrame p with
        | .error e => .error e.display
        | .ok (msg, p) =>
          match Parse.isFinish p with
          | .error e => .error e.display
          | .ok _ => .ok (.ping msg)
      else if cmdName = strBytes "publish" then
        match Publish.decodePublishFromFrame p with
        | .error e => .error e.display
        | .ok ((channel, message), p) =>
          match Parse.isFinish p with
          | .error e => .error e.display
          | .ok _ => .ok (.publish channel message)
      else if cmdName = strBytes "set" then
        match Set.decodeSetFromFrame p with
        | .error e => .error e.display
        | .ok ((key, value, expire), p) =>
          match Parse.isFinish p with
          | .error e => .error e.display
          | .ok _ => .ok (.set key value expire)
      else if cmdName = strBytes "subscribe" then
        match Subscribe.decodeSubscribeFromFrame p with
        | .error e => .error e.display
        | .ok (channels, p) =>
          match Parse.isFinish p with
          | .error e => .error e.display
          | .ok _ => .ok (.subscribe channels)
      else if cmdName = strBytes "unsubscribe" then
        match Unsubscribe.decodeUnsubscribeFromFrame p with
        | .error e => .error e.display
        | .ok (channels, p) =>
          match Parse.isFinish p with
          | .error e => .error e.display
          | .ok _ => .ok (.unsubscribe channels)
      else if cmdName = strBytes "exitsubscribe" then
        match ExitSubscribe.decodeExitSubscribeFromFrame p with
        | .error e => .error e.display
        | .ok (_, p) =>
          match Parse.isFinish p with
          | .error e => .error e.display
          | .ok _ => .ok .exitSubscribe
      else if cmdName = strBytes "save" then
        match Save.decodeSaveFromFrame with
        | .error e => .error e.display
        | .ok _ =>
          match Parse.isFinish p with
          | .error e => .error e.display
          | .ok _ => .ok .save
      else if cmdName = strBytes "del" then
        match Del.decodeDelFromFrame p with
        | .error e => .error e.display
        | .ok (key, p) =>
          match Parse.isFinish p with
          | .error e => .error e.display
          | .ok _ => .ok (.del key)
      else
        .ok (.unknown cmdName)
  | _ => .error "协议错误: 期望是array帧"

/-! ## The keyspace (`src/persistence/database.rs`)

`State` behind the store mutex.  `entries` (a `HashMap`) is an
association list with unique keys — lookup ignores order, insertion
replaces, removal filters.  `expirations` (a `BTreeSet<(u64, String)>`)
is a duplicate-free list kept sorted by `(time, key)`; `String` ordering
in Rust is byte-lexicographic, which `keyLt` implements directly on the
UTF-8 bytes.  `pub_sub` maps a channel to its broadcast sender, modelled
by the sender's current number of live receivers (`broadcast::Sender::send`
returns that count, or an error — mapped to 0 — when it is zero). -/

structure Entry where
  data : List Nat
  expires_at : Option Nat
deriving DecidableEq

structure State where
  entries : List (List Nat × Entry)
  pub_sub : List (List Nat × Nat)
  expirations : List (Nat × List Nat)
  shutdown : Bool

/-- Byte-lexicographic strict order on keys: Rust's `Ord` for `String`. -/
def keyLt : List Nat → List Nat → Bool
  | [], [] => false
  | [], _ :: _ => true
  | _ :: _, [] => false
  | a :: as, b :: bs => a < b || (a = b && keyLt as bs)

/-- Strict order on `(u64, String)` pairs: Rust's derived tuple `Ord`. -/
def pairLt (p q : Nat × List Nat) : Bool :=
  p.1 < q.1 || (p.1 = q.1 && keyLt p.2 q.2)

/-- `BTreeSet::insert`: no-op on a present element, otherwise insertion at
the ordered position. -/
def btreeInsert (p : Nat × List Nat) : List (Nat × List Nat) → List (Nat × List Nat)
  | [] => [p]
  | q :: rest =>
    if p = q then q :: rest
    else if pairLt p q then p :: q :: rest
    else q :: btreeInsert p rest

/-- `HashMap::get` (on our association-list model). -/
def mapGet (k : List Nat) (m : List (List Nat × Entry)) : Option Entry :=
  (m.find? (fun q => q.1 = k)).map (·.2)

/-- `HashMap::insert`, returning the replaced value like the Rust API. -/
def mapInsert (k : List Nat) (e : Entry) (m : List (List Nat × Entry)) :
    List (List Nat × Entry) :=
  (k, e) :: m.filter (fun q => ¬ q.1 = k)

/-- `HashMap::remove` (the map has unique keys, so filtering is removal). -/
def mapRemove (k : List Nat) (m : List (List Nat × Entry)) :
    List (List Nat × Entry) :=
  m.filter (fun q => ¬ q.1 = k)

/-- `State::next_expiration`: the time of the first (least) expiration. -/
def State.nextExpiration (st : State) : Option Nat :=
  st.expirations.head?.map Prod.fst

/-- `Database::get`: the entry's data, never touching expiry. -/
def Database.get (st : State) (key : List Nat) : Option (List Nat) :=
  (mapGet key st.entries).map (·.data)

/-- `Database::set` at wall-clock second `now` (`SystemTime::now`'s UNIX
timestamp in whole seconds).  The absolute expiry is
`now + duration.as_secs()`, i.e. `now + ms / 1000`; the prior entry's
expiration pair is dropped and the new one inserted; the returned flag is
the background-task notification (new expiry earlier than the scheduled
head). -/
def Database.set (st : State) (key value : List Nat) (expire : Option Nat)
    (now : Nat) : State × Bool :=
  let expireAt := expire.map (fun d => now + d / 1000)
  let notify :=
    match expireAt with
    | none => false
    | some when' =>
      match st.nextExpiration with
      | none => true
      | some expiration => expiration > when'
  let prev := mapGet key st.entries
  let entries := mapInsert key ⟨value, expireAt⟩ st.entries
  let expirations :=
    match prev with
    | some e =>
      match e.expires_at with
      | some when' => st.expirations.erase (when', key)
      | none => st.expirations
    | none => st.expirations
  let expirations :=
    match expireAt with
    | some when' => btreeInsert (when', key) expirations
    | none => expirations
  ({ st with entries := entries, expirations := expirations }, notify)

/-- Modelled from the spec: `Database::del` is called by `Del::apply` but
its definition in `persistence/database.rs` is not among the provided
sources.  The spec says a DEL "destroys" the key's Entry, and invariant 1
ties `expirations` to the entries' expiries, so deletion removes the
key's entry together with any expiration pair indexing it. -/
def Database.del (st : State) (key : List Nat) : State :=
  { st with
    entries := mapRemove key st.entries,
    expirations := st.expirations.filter (fun p => ¬ p.2 = key) }

/-- `Database::publish`: the live-receiver count of the channel's sender,
`0` when the channel is absent or the send fails for lack of receivers. -/
def Database.publish (st : State) (channel : List Nat) : Nat :=
  ((st.pub_sub.find? (fun q => q.1 = channel)).map (·.2)).getD 0

/-- `Database::load_from_rdb`: the deserialized `entries` map together
with a fresh (empty) `pub_sub`, a fresh (empty!) `expirations` set, and
`shutdown = false`. -/
def Database.loadFromRdb (data : List (List Nat × Entry)) : State :=
  { entries := data, pub_sub := [], expirations := [], shutdown := false }

/-- The drain loop of `Shared::clean_expired_keys`: while the least
expiration `(when, key)` is at or before `now`, remove the key from
`entries` and the pair from `expirations`; at the first future `when`
return it as the next wake-up time. -/
def cleanLoop (now : Nat) :
    List (Nat × List Nat) → List (List Nat × Entry) →
    Option Nat × List (Nat × List Nat) × List (List Nat × Entry)
  | [], entries => (none, [], entries)
  | (when', key) :: rest, entries =>
    if when' > now then (some when', (when', key) :: rest, entries)
    else cleanLoop now rest (mapRemove key entries)

/-- `Shared::clean_expired_keys` at wall-clock second `now`: `None`
immediately under shutdown, otherwise one reaper pass. -/
def Shared.cleanExpiredKeys (st : State) (now : Nat) : Option Nat × State :=
  if st.shutdown then (none, st)
  else
    let (next, expirations, entries) := cleanLoop now st.expirations st.entries
    (next, { st with expirations := expirations, entries := entries })

/-! ## Applying commands (`src/cmd/*.rs` `apply`, `src/server/handler.rs`)

`Command::apply` writes response frames to the connection and may mutate
the store; the `Subscribe` arm hands the connection to the interactive
subscribe-mode loop, so it is a distinct outcome rather than a list of
frames.  `Save`'s snapshot write is I/O outside the model; its response
frame is `Simple("OK")`. -/

inductive ApplyResult where
  | done (st : State) (writes : List Frame)
  | failed (msg : String)
  | enterSubscribeMode (channels : List (List Nat))

/-- `Unknown::apply`'s response frame: `Error(format!("未知命令: {}", name))`. -/
def Unknown.response (name : List Nat) : Frame :=
  .error (strBytes "未知命令: " ++ name)

/-- `Command::apply` (normal dispatch), at wall-clock second `now`. -/
def Command.apply (cmd : Command) (st : State) (now : Nat) : ApplyResult :=
  match cmd with
  | .set key value expire => .done (Database.set st key value expire now).1 [.simple (strBytes "OK")]
  | .get key =>
    match Database.get st key with
    | some value => .done st [.bulk value]
    | none => .done st [.null]
  | .publish channel _message => .done st [.integer (Database.publish st channel)]
  | .subscribe channels => .enterSubscribeMode channels
  | .unsubscribe _ => .failed "Unsubscribe is unsupported in this context"
  | .ping none => .done st [.simple (strBytes "PONG")]
  | .ping (some msg) => .done st [.bulk msg]
  | .unknown name => .done st [Unknown.response name]
  | .exitSubscribe => .done st []
  | .save => .done st [.simple (strBytes "OK")]
  | .del key => .done (Database.del st key) [.simple (strBytes "OK")]

/-- One dispatch of `Handler::run` on a frame read from the connection:
`Command::decode_cmd_from_frame(frame)?` propagates a decode failure out
of `run` (the listener then logs it and drops the connection — nothing is
written back); otherwise the command is applied. -/
inductive DispatchResult where
  | reading (st : State) (writes : List Frame)
  | terminated (msg : String) (writes : List Frame)
  | subscribeMode (channels : List (List Nat)) (st : State)

/-- The body of `Handler::run`'s loop after a frame has been read. -/
def Handler.dispatch (frame : Frame) (st : State) (now : Nat) : DispatchResult :=
  match Command.decodeCmdFromFrame frame with
  | .error e => .terminated e []
  | .ok cmd =>
    match Command.apply cmd st now with
    | .done st' writes => .reading st' writes
    | .failed msg => .terminated msg []
    | .enterSubscribeMode channels => .subscribeMode channels st

/-! ## Subscribe mode (`src/cmd/subscribe.rs`) -/

/-- `create_unsubscribe_response_frame`. -/
def unsubscribeResponseFrame (channel : List Nat) (numSubs : Nat) : Frame :=
  .array [.bulk (strBytes "unsubscribe"), .bulk channel, .integer numSubs]

/-- The `for channel_name in unsubscribe.channels` loop of
`handle_command`: remove each listed channel from the `StreamMap` (a
no-op when absent) and write one `unsubscribe` response frame carrying
the subscription count after the removal. -/
def unsubscribeLoop : List (List Nat) → List (List Nat) →
    List (List Nat) × List Frame
  | [], subs => (subs, [])
  | c :: rest, subs =>
    let subs' := subs.erase c
    let (subs'', frames) := unsubscribeLoop rest subs'
    (subs'', unsubscribeResponseFrame c subs'.length :: frames)

/-- `handle_command` in `Subscribe::apply`'s loop.  State: the pending
`subscribe_to` channel list and the `StreamMap` keys (`subcriptions`).
`Subscribe` extends the pending list; `Unsubscribe` removes channels (all
of them when none are listed); **every other decoded command — the
`exitsubscribe` sentinel included — falls into the catch-all arm** and is
answered by `Unknown::apply` with the command's name, leaving the
subscribe loop running.  A decode failure propagates (`?`) and tears the
connection down.  The function has no mode-exit outcome because
`Subscribe::apply`'s loop has none. -/
def Subscribe.handleCommand (frame : Frame)
    (subscribeTo : List (List Nat)) (subs : List (List Nat)) :
    Except String (List (List Nat) × List (List Nat) × List Frame) :=
  match Command.decodeCmdFromFrame frame with
  | .error e => .error e
  | .ok (.subscribe channels) => .ok (subscribeTo ++ channels, subs, [])
  | .ok (.unsubscribe channels) =>
    let channels' := if channels.isEmpty then subs else channels
    let (subs', frames) := unsubscribeLoop channels' subs
    .ok (subscribeTo, subs', frames)
  | .ok cmd => .ok (subscribeTo, subs, [Unknown.response cmd.getName])

/-- Whether a byte list contains the two-byte sequence `\r\n`. -/
def crlfIn : List Nat → Bool
  | a :: b :: rest => (a = 13 && b = 10) || crlfIn (b :: rest)
  | _ => false

/-- Conditions under which a non-array frame survives the encode/decode
round trip: `Simple`/`Error` text without an embedded `\r\n` (the line
scanner would stop early) and valid UTF-8 (automatic for a Rust `String`),
an `Integer` within `u64` (automatic for the Rust field), a `Bulk` whose
length fits `u64` (automatic for a Rust buffer). -/
def scalarOkB : Frame → Bool
  | .simple s => !crlfIn s && isValidUtf8 s
  | .error s => !crlfIn s && isValidUtf8 s
  | .integer n => decide (n < u64Size)
  | .bulk b => decide (b.length < u64Size)
  | .null => true
  | .array _ => false

/-- A frame `Connection::write_frame` can encode (no nested arrays) whose
parts satisfy `scalarOkB`. -/
def wellFormedB : Frame → Bool
  | .array items => decide (items.length < u64Size) && items.all scalarOkB
  | f => scalarOkB f

/-- Invariant 1 of the spec's data model: `(t, k) ∈ expirations` exactly
when `entries` maps `k` to an Entry with `expires_at = Some t`. -/
def DbInvariant (st : State) : Prop :=
  (∀ p ∈ st.expirations,
    (mapGet p.2 st.entries).map Entry.expires_at = some (some p.1)) ∧
  (∀ q ∈ st.entries, ∀ t, q.2.expires_at = some t → (t, q.1) ∈ st.expirations)

/-! ## Codec lemmas

Facts about `get_line`, `get_decimal` and the decimal writer that the
round-trip and check/parse-agreement theorems rest on. -/

theorem checkF_succ (fuel : Nat) (l : List Nat) :
    checkF (fuel + 1) l = checkStep (checkF fuel) l := rfl

theorem parseF_succ (fuel : Nat) (l : List Nat) :
    parseF (fuel + 1) l = parseStep (parseF fuel) l := rfl

theorem findCrlf_append_crlf (s r : List Nat) (h : crlfIn s = false) :
    findCrlf (s ++ 13 :: 10 :: r) = some s.length := by
  induction s with
  | nil => simp [findCrlf]
  | cons a s' ih =>
    cases s' with
    | nil =>
      simp only [List.cons_append, List.nil_append, findCrlf]
      norm_num [findCrlf]
    | cons b s'' =>
      simp only [crlfIn, Bool.or_eq_false_iff, Bool.and_eq_false_iff] at h
      simp only [List.cons_append, findCrlf]
      rw [if_neg]
      · have h2 := ih h.2
        simp only [List.cons_append, List.append_eq] at h2 ⊢
        rw [h2]
        simp
      · rcases h.1 with h1 | h1 <;> simp only [decide_eq_false_iff_not] at h1 <;> omega

theorem getLine_append_crlf (s r : List Nat) (h : crlfIn s = false) :
    getLine (s ++ 13 :: 10 :: r) = .ok (s, r) := by
  have htake : (s ++ 13 :: 10 :: r).take s.length = s := by
    simp
  have hdrop : (s ++ 13 :: 10 :: r).drop (s.length + 2) = r := by
    have h1 : s ++ 13 :: 10 :: r = (s ++ [13, 10]) ++ r := by simp
    have hl : (s ++ [13, 10]).length = s.length + 2 := by simp
    rw [h1, ← hl]
    exact List.drop_left _ _
  rw [getLine, findCrlf_append_crlf s r h]
  show Except.ok ((s ++ 13 :: 10 :: r).take s.length,
      (s ++ 13 :: 10 :: r).drop (s.length + 2)) = _
  rw [htake, hdrop]

theorem decBytes_digits (n : Nat) : (decBytes n).all isDigitByte = true := by
  rw [decBytes]
  split
  · decide
  · rw [List.all_eq_true]
    intro b hb
    simp only [List.mem_map, List.mem_reverse] at hb
    obtain ⟨d, hd, rfl⟩ := hb
    have : d < 10 := Nat.digits_lt_base (by norm_num) hd
    simp only [isDigitByte, Bool.and_eq_true, decide_eq_true_eq]
    omega

theorem decBytes_ne_nil (n : Nat) : decBytes n ≠ [] := by
  rw [decBytes]
  split
  · simp
  · simpa using Nat.digits_ne_nil_iff_ne_zero.mpr (by assumption)

theorem crlfIn_of_all_digits (l : List Nat) (h : l.all isDigitByte = true) :
    crlfIn l = false := by
  induction l with
  | nil => rfl
  | cons a l' ih =>
    cases l' with
    | nil => rfl
    | cons b l'' =>
      simp only [List.all_cons, Bool.and_eq_true] at h
      simp only [crlfIn, Bool.or_eq_false_iff, Bool.and_eq_false_iff]
      refine ⟨?_, ih (by simp [h.2.1, h.2.2])⟩
      left
      simp only [isDigitByte, Bool.and_eq_true, decide_eq_true_eq] at h
      simp only [decide_eq_false_iff_not]
      omega

theorem bedVal_aux (L : List Nat) (a : Nat) :
    (L.reverse.map (· + 48)).foldl (fun x d => 10 * x + (d - 48)) a =
      a * 10 ^ L.length + Nat.ofDigits 10 L := by
  induction L generalizing a with
  | nil => simp
  | cons d L' ih =>
    simp only [List.reverse_cons, List.map_append, List.foldl_append,
      List.map_cons, List.map_nil, List.foldl_cons, List.foldl_nil]
    rw [ih a]
    rw [Nat.ofDigits_cons]
    have h48 : d + 48 - 48 = d := by omega
    rw [h48, List.length_cons, pow_succ]
    ring

theorem bedVal_decBytes (n : Nat) : bedVal (decBytes n) = n := by
  rw [decBytes]
  split
  · subst n; rfl
  · rw [bedVal, bedVal_aux]
    simpa using Nat.ofDigits_digits 10 n

theorem atoiU64_decBytes (n : Nat) (h : n < u64Size) :
    atoiU64 (decBytes n) = some n := by
  rw [atoiU64, if_pos, bedVal_decBytes]
  exact ⟨decBytes_ne_nil n, decBytes_digits n, by rw [bedVal_decBytes]; exact h⟩

theorem getDecimal_decBytes (n : Nat) (r : List Nat) (h : n < u64Size) :
    getDecimal (decBytes n ++ 13 :: 10 :: r) = .ok (n, r) := by
  rw [getDecimal]
  rw [getLine_append_crlf _ _ (crlfIn_of_all_digits _ (decBytes_digits n))]
  show (match atoiU64 (decBytes n) with
    | some v => Except.ok (v, r)
    | none => Except.error (FrameErr.other "协议错误: 无效的帧格式")) = _
  rw [atoiU64_decBytes n h]

/-! ## Round-trip (claim C1) -/

theorem parseF_writeValue (f : Frame) (bs : List Nat)
    (hok : scalarOkB f = true) (henc : Connection.writeValue f = some bs)
    (fuel : Nat) (rest : List Nat) :
    parseF (fuel + 1) (bs ++ rest) = .ok (f, rest) := by
  cases f with
  | simple s =>
    simp only [scalarOkB, Bool.and_eq_true, Bool.not_eq_true'] at hok
    simp only [Connection.writeValue, Option.some.injEq] at henc
    subst henc
    show parseF (fuel + 1) (43 :: ((s ++ crlf) ++ rest)) = _
    have hx : (s ++ crlf) ++ rest = s ++ 13 :: 10 :: rest := by
      simp [crlf]
    rw [hx]
    rw [parseF_succ]
    simp only [parseStep, getU8, if_pos rfl]
    rw [getLine_append_crlf s rest hok.1]
    simp [hok.2]
  | error s =>
    simp only [scalarOkB, Bool.and_eq_true, Bool.not_eq_true'] at hok
    simp only [Connection.writeValue, Option.some.injEq] at henc
    subst henc
    show parseF (fuel + 1) (45 :: ((s ++ crlf) ++ rest)) = _
    have hx : (s ++ crlf) ++ rest = s ++ 13 :: 10 :: rest := by
      simp [crlf]
    rw [hx]
    rw [parseF_succ]
    simp only [parseStep, getU8]
    norm_num
    rw [getLine_append_crlf s rest hok.1]
    simp [hok.2]
  | integer n =>
    simp only [scalarOkB, decide_eq_true_eq] at hok
    simp only [Connection.writeValue, Option.some.injEq] at henc
    subst henc
    show parseF (fuel + 1) (58 :: (Connection.writeDecimal n ++ rest)) = _
    have hx : Connection.writeDecimal n ++ rest = decBytes n ++ 13 :: 10 :: rest := by
      simp [Connection.writeDecimal, crlf]
    rw [hx]
    rw [parseF_succ]
    simp only [parseStep, getU8]
    norm_num
    rw [getDecimal_decBytes n rest hok]
  | bulk b =>
    simp only [scalarOkB, decide_eq_true_eq] at hok
    simp only [Connection.writeValue, Option.some.injEq] at henc
    subst henc
    show parseF (fuel + 1)
      (36 :: ((Connection.writeDecimal b.length ++ b ++ crlf) ++ rest)) = _
    have hx : (Connection.writeDecimal b.length ++ b ++ crlf) ++ rest =
        decBytes b.length ++ 13 :: 10 :: (b ++ 13 :: 10 :: rest) := by
      simp [Connection.writeDecimal, crlf]
    rw [hx]
    rw [parseF_succ]
    simp only [parseStep, getU8]
    norm_num
    obtain ⟨d, t, hdt⟩ := List.exists_cons_of_ne_nil (decBytes_ne_nil b.length)
    have hd : isDigitByte d = true := by
      have := decBytes_digits b.length
      rw [hdt, List.all_cons, Bool.and_eq_true] at this
      exact this.1
    have hd45 : ¬ d = 45 := by
      simp only [isDigitByte, Bool.and_eq_true, decide_eq_true_eq] at hd
      omega
    rw [hdt]
    show (match peekU8 (d :: (t ++ 13 :: 10 :: (b ++ 13 :: 10 :: rest))) with
      | .error e => Except.error e
      | .ok p => _) = _
    rw [peekU8]
    show (if d = 45 then _ else
      match getDecimal ((d :: t) ++ 13 :: 10 :: (b ++ 13 :: 10 :: rest)) with
      | .error e => Except.error e
      | .ok (len, r') =>
        if r'.length < len + 2 then Except.error FrameErr.incomplete
        else Except.ok (Frame.bulk (r'.take len), r'.drop (len + 2))) = _
    rw [if_neg hd45, ← hdt, getDecimal_decBytes b.length _ hok]
    have hlen : (b ++ 13 :: 10 :: rest).length = b.length + 2 + rest.length := by
      simp only [List.length_append, List.length_cons]
      omega
    show (if (b ++ 13 :: 10 :: rest).length < b.length + 2 then
        Except.error FrameErr.incomplete
      else Except.ok (Frame.bulk ((b ++ 13 :: 10 :: rest).take b.length),
        (b ++ 13 :: 10 :: rest).drop (b.length + 2))) = _
    rw [if_neg (by omega)]
    have htake : (b ++ 13 :: 10 :: rest).take b.length = b := by
      simp
    have hdrop : (b ++ 13 :: 10 :: rest).drop (b.length + 2) = rest := by
      have h1 : b ++ 13 :: 10 :: rest = (b ++ [13, 10]) ++ rest := by simp
      have hl : (b ++ [13, 10]).length = b.length + 2 := by simp
      rw [h1, ← hl]
      exact List.drop_left _ _
    rw [htake, hdrop]
  | null =>
    simp only [Connection.writeValue, Option.some.injEq] at henc
    subst henc
    show parseF (fuel + 1) (36 :: (45 :: 49 :: 13 :: 10 :: rest)) = _
    rw [parseF_succ]
    simp only [parseStep, getU8]
    norm_num
    rw [peekU8]
    norm_num
    have h2 : (45 :: 49 :: 13 :: 10 :: rest) = [45, 49] ++ 13 :: 10 :: rest := rfl
    rw [h2, getLine_append_crlf [45, 49] rest (by decide)]
    show (if ([45, 49] : List Nat) = [45, 49] then Except.ok (Frame.null, rest)
      else Except.error (FrameErr.other "协议错误: 无效的帧格式")) = _
    rw [if_pos rfl]
  | array items =>
    simp [scalarOkB] at hok

theorem iterParseF_flatten (fuel : Nat) (items : List Frame)
    (ls : List (List Nat)) (rest : List Nat)
    (hok : items.all scalarOkB = true)
    (henc : items.mapM Connection.writeValue = some ls) :
    iterParseF (parseF (fuel + 1)) items.length (ls.flatten ++ rest) =
      .ok (items, rest) := by
  induction items generalizing ls rest with
  | nil =>
    simp only [List.mapM_nil, pure, Option.some.injEq] at henc
    subst henc
    rfl
  | cons f fs ih =>
    rw [List.all_cons, Bool.and_eq_true] at hok
    rw [List.mapM_cons] at henc
    cases hv : Connection.writeValue f with
    | none => rw [hv] at henc; simp at henc
    | some bs =>
      rw [hv] at henc
      cases hm : fs.mapM Connection.writeValue with
      | none => rw [hm] at henc; simp at henc
      | some ls' =>
        rw [hm] at henc
        have hls : ls = bs :: ls' := by
          simpa using henc.symm
        subst hls
        simp only [List.flatten_cons, List.length_cons, List.append_assoc]
        rw [iterParseF]
        rw [parseF_writeValue f bs hok.1 hv fuel (ls'.flatten ++ rest)]
        show (match iterParseF (parseF (fuel + 1)) fs.length (ls'.flatten ++ rest) with
          | Except.error e => Except.error e
          | Except.ok (fs', l'') => Except.ok (f :: fs', l'')) = _
        rw [ih ls' rest hok.2 hm]

theorem mapM_writeValue_isSome (items : List Frame)
    (hok : items.all scalarOkB = true) :
    ∃ ls, items.mapM Connection.writeValue = some ls := by
  induction items with
  | nil => exact ⟨[], rfl⟩
  | cons f fs ih =>
    rw [List.all_cons, Bool.and_eq_true] at hok
    obtain ⟨ls', hm⟩ := ih hok.2
    have hv : ∃ bs, Connection.writeValue f = some bs := by
      cases f with
      | array l => exact absurd hok.1 (by simp [scalarOkB])
      | simple s => exact ⟨_, rfl⟩
      | error s => exact ⟨_, rfl⟩
      | integer n => exact ⟨_, rfl⟩
      | bulk b => exact ⟨_, rfl⟩
      | null => exact ⟨_, rfl⟩
    obtain ⟨bs, hv⟩ := hv
    refine ⟨bs :: ls', ?_⟩
    rw [List.mapM_cons, hv, hm]
    rfl

/-- **C1 (amended).**  The round-trip law `parse(encode(f)) = f` holds for
every frame the encoder can produce bytes for: frames without nested
arrays (on a nested array, `Connection::write_value` hits its
`unreachable!()` arm instead of emitting bytes) and whose `Simple`/`Error`
text does not contain the byte sequence `\r\n` (which the line-oriented
reader would treat as the frame terminator).  UTF-8 validity of the text
and the `u64` bounds are automatic for the Rust types.  Parsing consumes
exactly the encoded bytes. -/
theorem frame_roundtrip_wellformed (f : Frame) (h : wellFormedB f = true) :
    ∃ bs, Connection.writeFrame f = some bs ∧ Frame.parse bs = .ok (f, []) := by
  cases f with
  | array items =>
    rw [wellFormedB, Bool.and_eq_true, decide_eq_true_eq] at h
    obtain ⟨ls, hm⟩ := mapM_writeValue_isSome items h.2
    refine ⟨42 :: (Connection.writeDecimal items.length ++ ls.flatten), ?_, ?_⟩
    · rw [Connection.writeFrame, hm]
      rfl
    · have hx : Connection.writeDecimal items.length ++ ls.flatten =
          decBytes items.length ++ 13 :: 10 :: ls.flatten := by
        simp [Connection.writeDecimal, crlf]
      rw [Frame.parse, hx, List.length_cons, parseF_succ]
      simp only [parseStep, getU8]
      rw [if_neg (by norm_num : ¬ (42 : Nat) = 43), if_neg (by norm_num : ¬ (42 : Nat) = 45),
        if_neg (by norm_num : ¬ (42 : Nat) = 58), if_neg (by norm_num : ¬ (42 : Nat) = 36),
        if_pos (trivial : True)]
      rw [getDecimal_decBytes items.length _ h.1]
      show (match iterParseF
          (parseF ((decBytes items.length ++ 13 :: 10 :: ls.flatten).length + 1))
          items.length ls.flatten with
        | Except.error e => Except.error e
        | Except.ok (items', r'') => Except.ok (Frame.array items', r'')) = _
      have hnil : ls.flatten = ls.flatten ++ [] := by simp
      rw [hnil, iterParseF_flatten _ items ls [] h.2 hm]
  | simple s =>
    refine ⟨43 :: (s ++ crlf), rfl, ?_⟩
    rw [Frame.parse]
    have h0 : (43 :: (s ++ crlf)) = (43 :: (s ++ crlf)) ++ [] := by simp
    conv in parseF _ _ => rw [h0]
    show parseF (_ + 1) _ = _
    exact parseF_writeValue (.simple s) _ h rfl _ []
  | error s =>
    refine ⟨45 :: (s ++ crlf), rfl, ?_⟩
    rw [Frame.parse]
    have h0 : (45 :: (s ++ crlf)) = (45 :: (s ++ crlf)) ++ [] := by simp
    conv in parseF _ _ => rw [h0]
    show parseF (_ + 1) _ = _
    exact parseF_writeValue (.error s) _ h rfl _ []
  | integer n =>
    refine ⟨58 :: Connection.writeDecimal n, rfl, ?_⟩
    rw [Frame.parse]
    have h0 : (58 :: Connection.writeDecimal n) =
        (58 :: Connection.writeDecimal n) ++ [] := by simp
    conv in parseF _ _ => rw [h0]
    show parseF (_ + 1) _ = _
    exact parseF_writeValue (.integer n) _ h rfl _ []
  | bulk b =>
    refine ⟨36 :: (Connection.writeDecimal b.length ++ b ++ crlf), rfl, ?_⟩
    rw [Frame.parse]
    have h0 : (36 :: (Connection.writeDecimal b.length ++ b ++ crlf)) =
        (36 :: (Connection.writeDecimal b.length ++ b ++ crlf)) ++ [] := by simp
    conv in parseF _ _ => rw [h0]
    show parseF (_ + 1) _ = _
    exact parseF_writeValue (.bulk b) _ h rfl _ []
  | null =>
    refine ⟨[36, 45, 49, 13, 10], rfl, ?_⟩
    rw [Frame.parse]
    have h0 : ([36, 45, 49, 13, 10] : List Nat) = [36, 45, 49, 13, 10] ++ [] := by simp
    conv in parseF _ _ => rw [h0]
    show parseF (_ + 1) _ = _
    exact parseF_writeValue .null _ h rfl _ []

/-- Witness for C1: a concrete well-formed frame (an array of all four
scalar shapes plus `Null`) encodes and parses back to itself. -/
theorem frame_roundtrip_wellformed_witness :
    wellFormedB (Frame.array [Frame.simple (strBytes "OK"),
      Frame.integer 12345, Frame.null, Frame.bulk (strBytes "x")]) = true ∧
    ∃ bs, Connection.writeFrame (Frame.array [Frame.simple (strBytes "OK"),
        Frame.integer 12345, Frame.null, Frame.bulk (strBytes "x")]) = some bs ∧
      Frame.parse bs = .ok (Frame.array [Frame.simple (strBytes "OK"),
        Frame.integer 12345, Frame.null, Frame.bulk (strBytes "x")], []) :=
  ⟨by decide, frame_roundtrip_wellformed _ (by decide)⟩

/-- Counterexample to C1 as stated: for the nested array
`Array [Array []]` the encoder produces no bytes at all — its inner
`write_value` call is the `unreachable!()` arm, which aborts the process —
so `parse(encode(f)) = f` fails for nested arrays. -/
theorem frame_roundtrip_claim_counterexample :
    Connection.writeFrame (Frame.array [Frame.array []]) = none := rfl

/-! ## Check/parse agreement (claim C3) -/

theorem findCrlf_decomp : ∀ (l : List Nat) (i : Nat), findCrlf l = some i →
    l = l.take i ++ 13 :: 10 :: l.drop (i + 2) := by
  intro l
  induction l with
  | nil => intro i h; simp [findCrlf] at h
  | cons a t ih =>
    intro i h
    cases t with
    | nil => simp [findCrlf] at h
    | cons b t' =>
      rw [findCrlf] at h
      by_cases hab : a = 13 ∧ b = 10
      · rw [if_pos hab] at h
        obtain ⟨rfl, rfl⟩ := hab
        have hi : i = 0 := by
          injection h with h0
          omega
        subst hi
        simp
      · rw [if_neg hab] at h
        cases hf : findCrlf (b :: t') with
        | none => rw [hf] at h; simp at h
        | some j =>
          rw [hf] at h
          simp at h
          have hi : i = j + 1 := by omega
          subst hi
          have hrec := ih j hf
          calc a :: b :: t'
              = a :: (b :: t') := rfl
            _ = a :: ((b :: t').take j ++ 13 :: 10 :: (b :: t').drop (j + 2)) := by
                rw [← hrec]
            _ = (a :: b :: t').take (j + 1) ++
                13 :: 10 :: (a :: b :: t').drop (j + 1 + 2) := by
                simp [List.take_succ_cons, List.drop_succ_cons]

theorem getLine_spec (l line rest : List Nat) (h : getLine l = .ok (line, rest)) :
    l = line ++ 13 :: 10 :: rest := by
  rw [getLine] at h
  cases hf : findCrlf l with
  | none => rw [hf] at h; simp at h
  | some i =>
    rw [hf] at h
    simp only [Except.ok.injEq, Prod.mk.injEq] at h
    rw [← h.1, ← h.2]
    exact findCrlf_decomp l i hf

theorem getLine_error (l : List Nat) (e : FrameErr) (h : getLine l = .error e) :
    e = .incomplete := by
  rw [getLine] at h
  cases hf : findCrlf l with
  | none => rw [hf] at h; simpa using h.symm
  | some i => rw [hf] at h; simp at h

theorem getDecimal_eq (l line rest : List Nat)
    (hg : getLine l = .ok (line, rest)) :
    getDecimal l = (match atoiU64 line with
      | some v => Except.ok (v, rest)
      | none => Except.error (FrameErr.other "协议错误: 无效的帧格式")) := by
  rw [getDecimal, hg]

theorem getDecimal_error (l : List Nat) (e : FrameErr)
    (h : getDecimal l = .error e) : e ≠ .unreached := by
  cases hg : getLine l with
  | error e' =>
    have hd : getDecimal l = .error e' := by rw [getDecimal, hg]
    rw [hd] at h
    injection h with h
    subst h
    rw [getLine_error l e' hg]
    simp
  | ok p =>
    obtain ⟨line, rest⟩ := p
    cases ha : atoiU64 line with
    | some v =>
      have hd : getDecimal l = .ok (v, rest) := by
        rw [getDecimal_eq l line rest hg, ha]
      rw [hd] at h
      simp at h
    | none =>
      have hd : getDecimal l = .error (.other "协议错误: 无效的帧格式") := by
        rw [getDecimal_eq l line rest hg, ha]
      rw [hd] at h
      injection h with h
      subst h
      simp

theorem iter_agrees
    (recur_c : List Nat → Except FrameErr (List Nat))
    (recur_p : List Nat → Except FrameErr (Frame × List Nat))
    (hrec : ∀ l rem, recur_c l = .ok rem →
      recur_p l ≠ .error .unreached ∧
      ∀ f rem', recur_p l = .ok (f, rem') → rem' = rem) :
    ∀ (n : Nat) (l rem : List Nat), iterListF recur_c n l = .ok rem →
      iterParseF recur_p n l ≠ .error .unreached ∧
      ∀ fs rem', iterParseF recur_p n l = .ok (fs, rem') → rem' = rem := by
  intro n
  induction n with
  | zero =>
    intro l rem h
    rw [iterListF] at h
    injection h with h
    constructor
    · simp [iterParseF]
    · intro fs rem' hp
      rw [iterParseF] at hp
      injection hp with hp
      have h2 : l = rem' := congrArg Prod.snd hp
      exact h2.symm.trans h
  | succ n ih =>
    intro l rem h
    rw [iterListF] at h
    cases hc : recur_c l with
    | error e => rw [hc] at h; simp at h
    | ok l1 =>
      rw [hc] at h
      simp only [] at h
      have hr := hrec l l1 hc
      cases hp : recur_p l with
      | error e =>
        have heq : iterParseF recur_p (n + 1) l = .error e := by
          rw [iterParseF, hp]
        have hne : e ≠ .unreached := fun he => hr.1 (he ▸ hp)
        constructor
        · rw [heq]
          intro hcontra
          injection hcontra with h2
          exact hne h2
        · intro fs rem' hcontra
          rw [heq] at hcontra
          simp at hcontra
      | ok p =>
        obtain ⟨f, l2⟩ := p
        have hl2 : l2 = l1 := hr.2 f l2 hp
        subst hl2
        have hi := ih l2 rem h
        have heq1 : iterParseF recur_p (n + 1) l =
            (match iterParseF recur_p n l2 with
              | .error e => Except.error e
              | .ok (fs, l'') => Except.ok (f :: fs, l'')) := by
          rw [iterParseF, hp]
        cases hip : iterParseF recur_p n l2 with
        | error e =>
          have heq : iterParseF recur_p (n + 1) l = .error e := by
            rw [heq1, hip]
          have hne : e ≠ .unreached := fun he => hi.1 (he ▸ hip)
          constructor
          · rw [heq]
            intro hcontra
            injection hcontra with h2
            exact hne h2
          · intro fs rem' hcontra
            rw [heq] at hcontra
            simp at hcontra
        | ok q =>
          obtain ⟨fs, l3⟩ := q
          have hl3 : l3 = rem := hi.2 fs l3 hip
          subst hl3
          have heq : iterParseF recur_p (n + 1) l = .ok (f :: fs, l3) := by
            rw [heq1, hip]
          constructor
          · rw [heq]
            simp
          · intro fs' rem' hq
            rw [heq] at hq
            injection hq with hq
            exact (congrArg Prod.snd hq).symm

theorem agree_of_ok {X : Except FrameErr (Frame × List Nat)} {f₀ : Frame}
    {rem : List Nat} (hx : X = .ok (f₀, rem)) :
    X ≠ .error .unreached ∧ ∀ f rem', X = .ok (f, rem') → rem' = rem := by
  subst hx
  constructor
  · simp
  · intro f rem' h
    injection h with h
    exact (congrArg Prod.snd h).symm

theorem agree_of_error {X : Except FrameErr (Frame × List Nat)} {e : FrameErr}
    {rem : List Nat} (hx : X = .error e) (hne : e ≠ .unreached) :
    X ≠ .error .unreached ∧ ∀ f rem', X = .ok (f, rem') → rem' = rem := by
  subst hx
  constructor
  · intro hc
    injection hc with hc
    exact hne hc
  · intro f rem' h
    simp at h

theorem step_agrees
    (recur_c : List Nat → Except FrameErr (List Nat))
    (recur_p : List Nat → Except FrameErr (Frame × List Nat))
    (hrec : ∀ l rem, recur_c l = .ok rem →
      recur_p l ≠ .error .unreached ∧
      ∀ f rem', recur_p l = .ok (f, rem') → rem' = rem)
    (l rem : List Nat) (h : checkStep recur_c l = .ok rem) :
    parseStep recur_p l ≠ .error .unreached ∧
      ∀ f rem', parseStep recur_p l = .ok (f, rem') → rem' = rem := by
  cases l with
  | nil =>
    have hc : checkStep recur_c [] = .error .incomplete := rfl
    rw [hc] at h
    simp at h
  | cons b r =>
    by_cases hb1 : b = 43
    · subst hb1
      have hceq : checkStep recur_c (43 :: r) =
          (match getLine r with
            | .error e => Except.error e
            | .ok (_, r') => Except.ok r') := rfl
      rw [hceq] at h
      have h0 : parseStep recur_p (43 :: r) =
          (match getLine r with
            | .error e => Except.error e
            | .ok (line, r') =>
              if isValidUtf8 line then Except.ok (Frame.simple line, r')
              else Except.error (FrameErr.other "协议错误: 无效的帧格式")) := rfl
      cases hgl : getLine r with
      | error e => rw [hgl] at h; simp at h
      | ok p =>
        obtain ⟨line, r'⟩ := p
        rw [hgl] at h
        have h2 : (Except.ok r' : Except FrameErr (List Nat)) = .ok rem := h
        injection h2 with h2
        have hmid : parseStep recur_p (43 :: r) =
            (if isValidUtf8 line then Except.ok (Frame.simple line, r')
              else Except.error (FrameErr.other "协议错误: 无效的帧格式")) := by
          rw [h0, hgl]
        by_cases hu : isValidUtf8 line
        · have hpeq : parseStep recur_p (43 :: r) = .ok (.simple line, r') := by
            rw [hmid, if_pos hu]
          rw [h2] at hpeq
          exact agree_of_ok hpeq
        · have hpeq : parseStep recur_p (43 :: r) =
              .error (.other "协议错误: 无效的帧格式") := by
            rw [hmid, if_neg hu]
          exact agree_of_error hpeq (by simp)
    · by_cases hb2 : b = 45
      · subst hb2
        have hceq : checkStep recur_c (45 :: r) =
            (match getLine r with
              | .error e => Except.error e
              | .ok (_, r') => Except.ok r') := rfl
        rw [hceq] at h
        have h0 : parseStep recur_p (45 :: r) =
            (match getLine r with
              | .error e => Except.error e
              | .ok (line, r') =>
                if isValidUtf8 line then Except.ok (Frame.error line, r')
                else Except.error (FrameErr.other "协议错误: 无效的帧格式")) := rfl
        cases hgl : getLine r with
        | error e => rw [hgl] at h; simp at h
        | ok p =>
          obtain ⟨line, r'⟩ := p
          rw [hgl] at h
          have h2 : (Except.ok r' : Except FrameErr (List Nat)) = .ok rem := h
          injection h2 with h2
          have hmid : parseStep recur_p (45 :: r) =
              (if isValidUtf8 line then Except.ok (Frame.error line, r')
                else Except.error (FrameErr.other "协议错误: 无效的帧格式")) := by
            rw [h0, hgl]
          by_cases hu : isValidUtf8 line
          · have hpeq : parseStep recur_p (45 :: r) = .ok (.error line, r') := by
              rw [hmid, if_pos hu]
            rw [h2] at hpeq
            exact agree_of_ok hpeq
          · have hpeq : parseStep recur_p (45 :: r) =
                .error (.other "协议错误: 无效的帧格式") := by
              rw [hmid, if_neg hu]
            exact agree_of_error hpeq (by simp)
      · by_cases hb3 : b = 58
        · subst hb3
          have hceq : checkStep recur_c (58 :: r) =
              (match getDecimal r with
                | .error e => Except.error e
                | .ok (_, r') => Except.ok r') := rfl
          rw [hceq] at h
          have h0 : parseStep recur_p (58 :: r) =
              (match getDecimal r with
                | .error e => Except.error e
                | .ok (v, r') => Except.ok (Frame.integer v, r')) := rfl
          cases hgd : getDecimal r with
          | error e => rw [hgd] at h; simp at h
          | ok p =>
            obtain ⟨v, r'⟩ := p
            rw [hgd] at h
            have h2 : (Except.ok r' : Except FrameErr (List Nat)) = .ok rem := h
            injection h2 with h2
            have hpeq : parseStep recur_p (58 :: r) = .ok (.integer v, r') := by
              rw [h0, hgd]
            rw [h2] at hpeq
            exact agree_of_ok hpeq
        · by_cases hb4 : b = 36
          · subst hb4
            have hceq : checkStep recur_c (36 :: r) =
                (match peekU8 r with
                  | .error e => Except.error e
                  | .ok p =>
                    if p = 45 then skipN 4 r
                    else
                      match getDecimal r with
                      | .error e => Except.error e
                      | .ok (len, r') => skipN (len + 2) r') := rfl
            rw [hceq] at h
            have h0 : parseStep recur_p (36 :: r) =
                (match peekU8 r with
                  | .error e => Except.error e
                  | .ok p =>
                    if p = 45 then
                      match getLine r with
                      | .error e => Except.error e
                      | .ok (line, r') =>
                        if line = [45, 49] then Except.ok (Frame.null, r')
                        else Except.error (FrameErr.other "协议错误: 无效的帧格式")
                    else
                      match getDecimal r with
                      | .error e => Except.error e
                      | .ok (len, r') =>
                        if r'.length < len + 2 then Except.error FrameErr.incomplete
                        else Except.ok (Frame.bulk (r'.take len),
                          r'.drop (len + 2))) := rfl
            cases hpk : peekU8 r with
            | error e => rw [hpk] at h; simp at h
            | ok p =>
              rw [hpk] at h
              have h3 : (if p = 45 then skipN 4 r
                  else
                    match getDecimal r with
                    | .error e => Except.error e
                    | .ok (len, r') => skipN (len + 2) r') = .ok rem := h
              by_cases hp45 : p = 45
              · rw [if_pos hp45] at h3
                rw [skipN] at h3
                by_cases hlen : 4 ≤ r.length
                · rw [if_pos hlen] at h3
                  injection h3 with h3
                  have hmid0 : parseStep recur_p (36 :: r) =
                      (if p = 45 then
                        match getLine r with
                        | .error e => Except.error e
                        | .ok (line, r') =>
                          if line = [45, 49] then Except.ok (Frame.null, r')
                          else Except.error (FrameErr.other "协议错误: 无效的帧格式")
                      else
                        match getDecimal r with
                        | .error e => Except.error e
                        | .ok (len, r') =>
                          if r'.length < len + 2 then Except.error FrameErr.incomplete
                          else Except.ok (Frame.bulk (r'.take len),
                            r'.drop (len + 2))) := by
                    rw [h0, hpk]
                  have h1 : parseStep recur_p (36 :: r) =
                      (match getLine r with
                        | .error e => Except.error e
                        | .ok (line, r') =>
                          if line = [45, 49] then Except.ok (Frame.null, r')
                          else Except.error (FrameErr.other "协议错误: 无效的帧格式")) := by
                    rw [hmid0, if_pos hp45]
                  cases hgl : getLine r with
                  | error e =>
                    have hpeq : parseStep recur_p (36 :: r) = .error e := by
                      rw [h1, hgl]
                    exact agree_of_error hpeq
                      (by rw [getLine_error r e hgl]; simp)
                  | ok q =>
                    obtain ⟨line, r'⟩ := q
                    have hspec := getLine_spec r line r' hgl
                    have hmid1 : parseStep recur_p (36 :: r) =
                        (if line = [45, 49] then Except.ok (Frame.null, r')
                          else Except.error
                            (FrameErr.other "协议错误: 无效的帧格式")) := by
                      rw [h1, hgl]
                    by_cases hline : line = [45, 49]
                    · have hpeq : parseStep recur_p (36 :: r) = .ok (.null, r') := by
                        rw [hmid1, if_pos hline]
                      have hd : r.drop 4 = r' := by
                        rw [hspec, hline]
                        rfl
                      have hr' : r' = rem := hd.symm.trans h3
                      rw [hr'] at hpeq
                      exact agree_of_ok hpeq
                    · have hpeq : parseStep recur_p (36 :: r) =
                          .error (.other "协议错误: 无效的帧格式") := by
                        rw [hmid1, if_neg hline]
                      exact agree_of_error hpeq (by simp)
                · rw [if_neg hlen] at h3
                  simp at h3
              · rw [if_neg hp45] at h3
                cases hgd : getDecimal r with
                | error e => rw [hgd] at h3; simp at h3
                | ok q =>
                  obtain ⟨len, r'⟩ := q
                  rw [hgd] at h3
                  have h4 : skipN (len + 2) r' = .ok rem := h3
                  rw [skipN] at h4
                  by_cases hlen : len + 2 ≤ r'.length
                  · rw [if_pos hlen] at h4
                    injection h4 with h4
                    have hmid0 : parseStep recur_p (36 :: r) =
                        (if p = 45 then
                          match getLine r with
                          | .error e => Except.error e
                          | .ok (line, r') =>
                            if line = [45, 49] then Except.ok (Frame.null, r')
                            else Except.error (FrameErr.other "协议错误: 无效的帧格式")
                        else
                          match getDecimal r with
                          | .error e => Except.error e
                          | .ok (len, r') =>
                            if r'.length < len + 2 then Except.error FrameErr.incomplete
                            else Except.ok (Frame.bulk (r'.take len),
                              r'.drop (len + 2))) := by
                      rw [h0, hpk]
                    have h1 : parseStep recur_p (36 :: r) =
                        (match getDecimal r with
                          | .error e => Except.error e
                          | .ok (len, r') =>
                            if r'.length < len + 2 then Except.error FrameErr.incomplete
                            else Except.ok (Frame.bulk (r'.take len),
                              r'.drop (len + 2))) := by
                      rw [hmid0, if_neg hp45]
                    have hmid2 : parseStep recur_p (36 :: r) =
                        (if r'.length < len + 2 then Except.error FrameErr.incomplete
                          else Except.ok (Frame.bulk (r'.take len),
                            r'.drop (len + 2))) := by
                      rw [h1, hgd]
                    have hpeq : parseStep recur_p (36 :: r) =
                        .ok (.bulk (r'.take len), r'.drop (len + 2)) := by
                      rw [hmid2, if_neg (by omega : ¬ r'.length < len + 2)]
                    rw [h4] at hpeq
                    exact agree_of_ok hpeq
                  · rw [if_neg hlen] at h4
                    simp at h4
          · by_cases hb5 : b = 42
            · subst hb5
              have hceq : checkStep recur_c (42 :: r) =
                  (match getDecimal r with
                    | .error e => Except.error e
                    | .ok (len, r') => iterListF recur_c len r') := rfl
              rw [hceq] at h
              cases hgd : getDecimal r with
              | error e => rw [hgd] at h; simp at h
              | ok q =>
                obtain ⟨len, r'⟩ := q
                rw [hgd] at h
                have h2 : iterListF recur_c len r' = .ok rem := h
                have hit := iter_agrees recur_c recur_p hrec len r' rem h2
                have h1 : parseStep recur_p (42 :: r) =
                    (match iterParseF recur_p len r' with
                      | .error e => Except.error e
                      | .ok (items, r'') => Except.ok (Frame.array items, r'')) := by
                  have h0 : parseStep recur_p (42 :: r) =
                      (match getDecimal r with
                        | .error e => Except.error e
                        | .ok (len, r') =>
                          match iterParseF recur_p len r' with
                          | .error e => Except.error e
                          | .ok (items, r'') =>
                            Except.ok (Frame.array items, r'')) := rfl
                  rw [h0, hgd]
                cases hip : iterParseF recur_p len r' with
                | error e =>
                  have hpeq : parseStep recur_p (42 :: r) = .error e := by
                    rw [h1, hip]
                  have hne : e ≠ .unreached := fun he => hit.1 (he ▸ hip)
                  exact agree_of_error hpeq hne
                | ok q2 =>
                  obtain ⟨items, r''⟩ := q2
                  have hr'' : r'' = rem := hit.2 items r'' hip
                  have hpeq : parseStep recur_p (42 :: r) =
                      .ok (.array items, r'') := by
                    rw [h1, hip]
                  rw [hr''] at hpeq
                  exact agree_of_ok hpeq
            · have hceq : checkStep recur_c (b :: r) =
                  .error (.other "协议错误: 无效的帧类型") := by
                simp only [checkStep, getU8]
                rw [if_neg hb1, if_neg hb2, if_neg hb3, if_neg hb4, if_neg hb5]
              rw [hceq] at h
              simp at h

/-- Fuel-level form of the amended C3: wherever `check` succeeds, `parse`
never reaches its `unimplemented!()` arm, and if it succeeds it stops at
exactly the position where `check` stopped. -/
theorem parseF_agrees_checkF (fuel : Nat) :
    ∀ l rem, checkF fuel l = .ok rem →
      parseF fuel l ≠ .error .unreached ∧
      ∀ f rem', parseF fuel l = .ok (f, rem') → rem' = rem := by
  induction fuel with
  | zero =>
    intro l rem h
    exact absurd h (by simp [checkF])
  | succ n ih =>
    intro l rem h
    rw [checkF_succ] at h
    rw [parseF_succ]
    exact step_agrees (checkF n) (parseF n) ih l rem h

/-- **C3 (amended).**  Whenever `Frame::check` accepts a prefix of the
buffer, `Frame::parse` run from the same start never reaches its
`unimplemented!()` arm, and whenever it returns a frame it advances the
cursor to exactly the position where `check` stopped.  `parse` may
however still fail where `check` succeeded: `check` only skips four bytes
after `$-` without inspecting them, while `parse` insists on a `-1\r\n`
line, and `parse` additionally validates `Simple`/`Error` payloads as
UTF-8.  (Positions are stated as the remaining suffix of the buffer.) -/
theorem check_parse_agreement (buf rem : List Nat) (h : Frame.check buf = .ok rem) :
    Frame.parse buf ≠ .error .unreached ∧
      ∀ f rem', Frame.parse buf = .ok (f, rem') → rem' = rem :=
  parseF_agrees_checkF (buf.length + 1) buf rem h

/-- Witness for C3 at the buffer `"+OK\r\n"`, where check succeeds
consuming everything. -/
theorem check_parse_agreement_witness :
    Frame.check (strBytes "+OK\r\n") = .ok [] ∧
    (Frame.parse (strBytes "+OK\r\n") ≠ .error .unreached ∧
      ∀ f rem', Frame.parse (strBytes "+OK\r\n") = .ok (f, rem') → rem' = []) :=
  ⟨rfl, check_parse_agreement (strBytes "+OK\r\n") [] rfl⟩

/-- Counterexample to C3 as stated: on `"$-2\r\n"`, `Frame::check`
succeeds (after `$-` it blindly skips four bytes), but `Frame::parse`
returns an Invalid-frame error rather than a frame, because the line is
not `-1`. -/
theorem check_parse_agreement_claim_counterexample :
    Frame.check (strBytes "$-2\r\n") = .ok [] ∧
    Frame.parse (strBytes "$-2\r\n") = .error (.other "协议错误: 无效的帧格式") :=
  ⟨rfl, rfl⟩

/-! ## Keyspace invariant and claims C2, C6, C7 -/

theorem mapGet_cons_eq {k : List Nat} {q : List Nat × Entry}
    {m : List (List Nat × Entry)} (h : q.1 = k) : mapGet k (q :: m) = some q.2 := by
  rw [mapGet, List.find?_cons_of_pos _ (by simp [h])]
  rfl

theorem mapGet_cons_ne {k : List Nat} {q : List Nat × Entry}
    {m : List (List Nat × Entry)} (h : ¬ q.1 = k) :
    mapGet k (q :: m) = mapGet k m := by
  rw [mapGet, mapGet, List.find?_cons_of_neg _ (by simp [h])]

theorem mapGet_mapRemove_self (k : List Nat) (m : List (List Nat × Entry)) :
    mapGet k (mapRemove k m) = none := by
  induction m with
  | nil => rfl
  | cons q m' ih =>
    by_cases hq : q.1 = k
    · rw [mapRemove, List.filter_cons, if_neg (by simp [hq])]
      exact ih
    · rw [mapRemove, List.filter_cons, if_pos (by simp [hq])]
      rw [mapGet_cons_ne hq]
      exact ih

theorem mapGet_mapRemove_ne {k k₀ : List Nat} (m : List (List Nat × Entry))
    (h : ¬ k = k₀) : mapGet k (mapRemove k₀ m) = mapGet k m := by
  induction m with
  | nil => rfl
  | cons q m' ih =>
    by_cases hq : q.1 = k₀
    · rw [mapRemove, List.filter_cons, if_neg (by simp [hq])]
      rw [mapGet_cons_ne (by rw [hq]; exact fun hk => h hk.symm)]
      exact ih
    · rw [mapRemove, List.filter_cons, if_pos (by simp [hq])]
      by_cases hk : q.1 = k
      · rw [mapGet_cons_eq hk, mapGet_cons_eq hk]
      · rw [mapGet_cons_ne hk, mapGet_cons_ne hk]
        exact ih

theorem mapGet_mapInsert_self (k : List Nat) (e : Entry)
    (m : List (List Nat × Entry)) : mapGet k (mapInsert k e m) = some e := by
  rw [mapInsert]
  exact mapGet_cons_eq rfl

/-- **C2 (the bug).**  `Database::load_from_rdb` deserializes the
`entries` map — whose entries keep their `expires_at` fields — but
installs a fresh **empty** `expirations` set, so the spec's invariant 1
fails in the very first observable state after loading a snapshot that
contains a key with a TTL.  (`Database::set` and the reaper do preserve
the invariant; the loader is the slip: those keys will never be visited
by the reaper.) -/
theorem load_from_rdb_breaks_invariant :
    ¬ DbInvariant (Database.loadFromRdb [(strBytes "k",
      ⟨strBytes "v", some 5⟩)]) := by
  intro h
  have h2 := h.2 (strBytes "k", ⟨strBytes "v", some 5⟩)
    (by simp [Database.loadFromRdb]) 5 rfl
  simp [Database.loadFromRdb] at h2

/-- **C6 (amended).**  Decoding keeps the unit the client asked for —
`EX s` becomes a duration of exactly `s` seconds (`1000·s` ms), `PX m`
exactly `m` milliseconds — but `Database::set` stores the absolute expiry
in whole wall-clock **seconds** as `now + duration.as_secs()`, so a `PX`
TTL is truncated to `⌊m / 1000⌋` whole seconds (sub-second precision is
discarded); `EX` survives exactly. -/
theorem set_ttl_resolution (st : State) (kb vb : List Nat) (s m now : Nat)
    (hkb : isValidUtf8 kb = true) :
    Set.decodeSetFromFrame [.bulk kb, .bulk vb, .bulk (strBytes "EX"), .integer s] =
      .ok ((kb, vb, some (1000 * s)), []) ∧
    Set.decodeSetFromFrame [.bulk kb, .bulk vb, .bulk (strBytes "PX"), .integer m] =
      .ok ((kb, vb, some m), []) ∧
    mapGet kb (Database.set st kb vb (some (1000 * s)) now).1.entries =
      some ⟨vb, some (now + s)⟩ ∧
    mapGet kb (Database.set st kb vb (some m) now).1.entries =
      some ⟨vb, some (now + m / 1000)⟩ := by
  refine ⟨?_, ?_, ?_, ?_⟩
  · simp only [Set.decodeSetFromFrame, Parse.nextString, Parse.nextBytes,
      Parse.nextInt, hkb, if_true,
      (by decide : isValidUtf8 (strBytes "EX") = true),
      (by decide : asciiLower (strBytes "EX") = strBytes "ex")]
  · simp only [Set.decodeSetFromFrame, Parse.nextString, Parse.nextBytes,
      Parse.nextInt, hkb, if_true,
      (by decide : isValidUtf8 (strBytes "PX") = true),
      (by decide : ¬ asciiLower (strBytes "PX") = strBytes "ex"),
      (by decide : asciiLower (strBytes "PX") = strBytes "px"),
      (by decide : ¬ strBytes "px" = strBytes "ex"), if_false]
  · show mapGet kb (mapInsert kb ⟨vb, some (now + 1000 * s / 1000)⟩ st.entries) =
      some ⟨vb, some (now + s)⟩
    rw [mapGet_mapInsert_self]
    rw [Nat.mul_div_cancel_left s (by norm_num)]
  · show mapGet kb (mapInsert kb ⟨vb, some (now + m / 1000)⟩ st.entries) =
      some ⟨vb, some (now + m / 1000)⟩
    rw [mapGet_mapInsert_self]

/-- Witness for C6 at `EX 7` / `PX 1500`, `now = 100`. -/
theorem set_ttl_resolution_witness :
    isValidUtf8 (strBytes "k") = true ∧
    (Set.decodeSetFromFrame [.bulk (strBytes "k"), .bulk (strBytes "v"),
        .bulk (strBytes "EX"), .integer 7] =
      .ok ((strBytes "k", strBytes "v", some (1000 * 7)), []) ∧
    Set.decodeSetFromFrame [.bulk (strBytes "k"), .bulk (strBytes "v"),
        .bulk (strBytes "PX"), .integer 1500] =
      .ok ((strBytes "k", strBytes "v", some 1500), []) ∧
    mapGet (strBytes "k") (Database.set ⟨[], [], [], false⟩ (strBytes "k")
        (strBytes "v") (some (1000 * 7)) 100).1.entries =
      some ⟨strBytes "v", some (100 + 7)⟩ ∧
    mapGet (strBytes "k") (Database.set ⟨[], [], [], false⟩ (strBytes "k")
        (strBytes "v") (some 1500) 100).1.entries =
      some ⟨strBytes "v", some (100 + 1500 / 1000)⟩) :=
  ⟨by decide, set_ttl_resolution ⟨[], [], [], false⟩ (strBytes "k")
    (strBytes "v") 7 1500 100 (by decide)⟩

/-- Counterexample to C6 as stated: `SET k v PX 500` at wall-clock second
100 stores the absolute expiry `100` (whole seconds) — that is `100000`
in milliseconds, not the demanded `100 * 1000 + 500`: the stored expiry
is *not* the time of the set plus exactly `m` milliseconds. -/
theorem set_ttl_claim_counterexample :
    mapGet (strBytes "k") (Database.set ⟨[], [], [], false⟩ (strBytes "k")
        (strBytes "v") (some 500) 100).1.entries =
      some ⟨strBytes "v", some 100⟩ ∧
    (100 : Nat) * 1000 ≠ 100 * 1000 + 500 := ⟨rfl, by norm_num⟩

/-- **C7.**  `Del::apply` answers `Simple("OK")` no matter whether the key
was present, and a `GET` of the same key afterwards answers `Null`.
(`Database::del` itself is not among the provided sources — see its
definition — so the removal effect is modelled from the spec; the
unconditional `OK` response is `Del::apply` from the source.) -/
theorem del_ok_then_get_null (st : State) (k : List Nat) (now now' : Nat) :
    Command.apply (.del k) st now =
      .done (Database.del st k) [.simple (strBytes "OK")] ∧
    Command.apply (.get k) (Database.del st k) now' =
      .done (Database.del st k) [.null] := by
  constructor
  · rfl
  · have hg : Database.get (Database.del st k) k = none := by
      rw [Database.get, Database.del]
      simp only
      rw [mapGet_mapRemove_self]
      rfl
    have h0 : Command.apply (.get k) (Database.del st k) now' =
        (match Database.get (Database.del st k) k with
          | some value => ApplyResult.done (Database.del st k) [Frame.bulk value]
          | none => ApplyResult.done (Database.del st k) [Frame.null]) := rfl
    rw [h0, hg]

/-! ## The reaper pass (claim C9) -/

theorem cleanLoop_exact (now : Nat) :
    ∀ (exps : List (Nat × List Nat)) (entries : List (List Nat × Entry)),
    exps.Nodup →
    exps.Pairwise (fun a b => a.1 ≤ b.1) →
    (∀ p ∈ exps, (mapGet p.2 entries).map Entry.expires_at = some (some p.1)) →
    (∀ q ∈ entries, ∀ t, q.2.expires_at = some t → (t, q.1) ∈ exps) →
    (cleanLoop now exps entries).2.1 = exps.filter (fun p => decide (now < p.1)) ∧
    (∀ k, (∃ t, (t, k) ∈ exps ∧ t ≤ now) →
      mapGet k (cleanLoop now exps entries).2.2 = none) ∧
    (∀ k, (∀ t, (t, k) ∈ exps → now < t) →
      mapGet k (cleanLoop now exps entries).2.2 = mapGet k entries) ∧
    (cleanLoop now exps entries).1 =
      ((cleanLoop now exps entries).2.1.head?.map Prod.fst) := by
  intro exps
  induction exps with
  | nil =>
    intro entries _ _ _ _
    refine ⟨rfl, ?_, fun k _ => rfl, rfl⟩
    rintro k ⟨t, hmem, _⟩
    exact absurd hmem (List.not_mem_nil _)
  | cons hd rest ih =>
    obtain ⟨t₀, k₀⟩ := hd
    intro entries hnd hsort hfwd hbwd
    by_cases hgt : t₀ > now
    · have hloop : cleanLoop now ((t₀, k₀) :: rest) entries =
          (some t₀, (t₀, k₀) :: rest, entries) := by
        rw [cleanLoop, if_pos hgt]
      have hall : ∀ p ∈ (t₀, k₀) :: rest, now < p.1 := by
        intro p hp
        rcases List.mem_cons.mp hp with rfl | hp'
        · exact hgt
        · have := (List.pairwise_cons.mp hsort).1 p hp'
          omega
      have hfil : ((t₀, k₀) :: rest).filter (fun p => decide (now < p.1)) =
          (t₀, k₀) :: rest := by
        rw [List.filter_eq_self]
        intro p hp
        simpa using hall p hp
      rw [hloop]
      refine ⟨hfil.symm, ?_, fun k _ => rfl, rfl⟩
      rintro k ⟨t, hmem, hle⟩
      have := hall (t, k) hmem
      omega
    · have hloop : cleanLoop now ((t₀, k₀) :: rest) entries =
          cleanLoop now rest (mapRemove k₀ entries) := by
        rw [cleanLoop, if_neg hgt]
      have hk₀ : (mapGet k₀ entries).map Entry.expires_at = some (some t₀) :=
        hfwd (t₀, k₀) (List.mem_cons_self _ _)
      have hk₀x : ∃ e₀, mapGet k₀ entries = some e₀ ∧ e₀.expires_at = some t₀ := by
        cases hg : mapGet k₀ entries with
        | none => rw [hg] at hk₀; simp at hk₀
        | some e₀ =>
          rw [hg] at hk₀
          simp only [Option.map_some', Option.some.injEq] at hk₀
          exact ⟨e₀, rfl, hk₀⟩
      have hnotk₀ : ∀ p ∈ rest, ¬ p.2 = k₀ := by
        intro p hp hpk
        obtain ⟨e₀, hg, he⟩ := hk₀x
        have hf := hfwd p (List.mem_cons_of_mem _ hp)
        rw [hpk, hg] at hf
        simp only [Option.map_some', Option.some.injEq] at hf
        rw [he] at hf
        injection hf with hf2
        have hpt : p = (t₀, k₀) := by
          cases p with
          | mk p1 p2 =>
            simp only at hpk hf2
            rw [hpk, ← hf2]
        rw [hpt] at hp
        exact (List.nodup_cons.mp hnd).1 hp
      have hnd' : rest.Nodup := (List.nodup_cons.mp hnd).2
      have hsort' : rest.Pairwise (fun a b => a.1 ≤ b.1) :=
        (List.pairwise_cons.mp hsort).2
      have hfwd' : ∀ p ∈ rest,
          (mapGet p.2 (mapRemove k₀ entries)).map Entry.expires_at =
            some (some p.1) := by
        intro p hp
        rw [mapGet_mapRemove_ne _ (hnotk₀ p hp)]
        exact hfwd p (List.mem_cons_of_mem _ hp)
      have hbwd' : ∀ q ∈ mapRemove k₀ entries, ∀ t,
          q.2.expires_at = some t → (t, q.1) ∈ rest := by
        intro q hq t ht
        have hq2 := List.mem_filter.mp hq
        have hqk : ¬ q.1 = k₀ := by simpa using hq2.2
        have hm := hbwd q hq2.1 t ht
        rcases List.mem_cons.mp hm with he | hm'
        · exact absurd (congrArg Prod.snd he) hqk
        · exact hm'
      have IH := ih (mapRemove k₀ entries) hnd' hsort' hfwd' hbwd'
      have hfc : ((t₀, k₀) :: rest).filter (fun p => decide (now < p.1)) =
          rest.filter (fun p => decide (now < p.1)) := by
        rw [List.filter_cons, if_neg (by simp; omega)]
      refine ⟨?_, ?_, ?_, ?_⟩
      · rw [hloop, hfc]
        exact IH.1
      · rintro k ⟨t, hmem, hle⟩
        rw [hloop]
        rcases List.mem_cons.mp hmem with he | hm'
        · have hk : k = k₀ := congrArg Prod.snd he
          subst hk
          have hvac : ∀ t', (t', k) ∈ rest → now < t' := by
            intro t' hmem'
            exact absurd rfl (hnotk₀ (t', k) hmem')
          rw [IH.2.2.1 k hvac]
          exact mapGet_mapRemove_self k entries
        · exact IH.2.1 k ⟨t, hm', hle⟩
      · intro k hall
        rw [hloop]
        have hk : ¬ k = k₀ := by
          intro he
          subst he
          have := hall t₀ (List.mem_cons_self _ _)
          omega
        rw [IH.2.2.1 k (fun t ht => hall t (List.mem_cons_of_mem _ ht))]
        exact mapGet_mapRemove_ne entries hk
      · rw [hloop]
        exact IH.2.2.2

/-- **C9.**  A single reaper pass (`Shared::clean_expired_keys`) at
wall-clock second `now`, with `shutdown` unset and the state satisfying
the expiration-index invariant (with `expirations` sorted and
duplicate-free, as a `BTreeSet` iterates), removes from `expirations`
exactly the pairs with `t ≤ now` and from `entries` exactly the keys those
pairs index — so the keys that remain are exactly those with no expiry or
an expiry strictly in the future — and returns the earliest remaining
expiry time when one exists (`None` otherwise). -/
theorem clean_expired_keys_exact (st : State) (now : Nat)
    (hsd : st.shutdown = false)
    (hnd : st.expirations.Nodup)
    (hsort : st.expirations.Pairwise (fun a b => a.1 ≤ b.1))
    (hinv : DbInvariant st) :
    (Shared.cleanExpiredKeys st now).2.expirations =
      st.expirations.filter (fun p => decide (now < p.1)) ∧
    (∀ k, (∃ t, (t, k) ∈ st.expirations ∧ t ≤ now) →
      mapGet k (Shared.cleanExpiredKeys st now).2.entries = none) ∧
    (∀ k, (∀ t, (t, k) ∈ st.expirations → now < t) →
      mapGet k (Shared.cleanExpiredKeys st now).2.entries = mapGet k st.entries) ∧
    (Shared.cleanExpiredKeys st now).1 =
      ((Shared.cleanExpiredKeys st now).2.expirations.head?.map Prod.fst) := by
  have hc := cleanLoop_exact now st.expirations st.entries hnd hsort hinv.1 hinv.2
  have he : Shared.cleanExpiredKeys st now =
      ((cleanLoop now st.expirations st.entries).1,
        { st with
          expirations := (cleanLoop now st.expirations st.entries).2.1,
          entries := (cleanLoop now st.expirations st.entries).2.2 }) := by
    rw [Shared.cleanExpiredKeys, if_neg (by rw [hsd]; simp)]
  rw [he]
  exact ⟨hc.1, hc.2.1, hc.2.2.1, hc.2.2.2⟩

/-- Witness for C9: a store holding `a ↦ (expiry 1)`, `b ↦ (expiry 10)`
reaped at `now = 5` drops exactly `a` and reports `10` as the next
wake-up. -/
theorem clean_expired_keys_exact_witness :
    ((⟨[(strBytes "a", ⟨strBytes "x", some 1⟩),
        (strBytes "b", ⟨strBytes "y", some 10⟩)], [],
        [(1, strBytes "a"), (10, strBytes "b")], false⟩ : State).shutdown = false ∧
      ([(1, strBytes "a"), (10, strBytes "b")] : List (Nat × List Nat)).Nodup ∧
      ([(1, strBytes "a"), (10, strBytes "b")] :
        List (Nat × List Nat)).Pairwise (fun a b => a.1 ≤ b.1) ∧
      DbInvariant ⟨[(strBytes "a", ⟨strBytes "x", some 1⟩),
        (strBytes "b", ⟨strBytes "y", some 10⟩)], [],
        [(1, strBytes "a"), (10, strBytes "b")], false⟩) ∧
    ((Shared.cleanExpiredKeys ⟨[(strBytes "a", ⟨strBytes "x", some 1⟩),
        (strBytes "b", ⟨strBytes "y", some 10⟩)], [],
        [(1, strBytes "a"), (10, strBytes "b")], false⟩ 5).2.expirations =
      ([(1, strBytes "a"), (10, strBytes "b")] :
        List (Nat × List Nat)).filter (fun p => decide (5 < p.1)) ∧
    (∀ k, (∃ t, (t, k) ∈ ([(1, strBytes "a"), (10, strBytes "b")] :
        List (Nat × List Nat)) ∧ t ≤ 5) →
      mapGet k (Shared.cleanExpiredKeys ⟨[(strBytes "a", ⟨strBytes "x", some 1⟩),
        (strBytes "b", ⟨strBytes "y", some 10⟩)], [],
        [(1, strBytes "a"), (10, strBytes "b")], false⟩ 5).2.entries = none) ∧
    (∀ k, (∀ t, (t, k) ∈ ([(1, strBytes "a"), (10, strBytes "b")] :
        List (Nat × List Nat)) → 5 < t) →
      mapGet k (Shared.cleanExpiredKeys ⟨[(strBytes "a", ⟨strBytes "x", some 1⟩),
        (strBytes "b", ⟨strBytes "y", some 10⟩)], [],
        [(1, strBytes "a"), (10, strBytes "b")], false⟩ 5).2.entries =
      mapGet k [(strBytes "a", ⟨strBytes "x", some 1⟩),
        (strBytes "b", ⟨strBytes "y", some 10⟩)]) ∧
    (Shared.cleanExpiredKeys ⟨[(strBytes "a", ⟨strBytes "x", some 1⟩),
        (strBytes "b", ⟨strBytes "y", some 10⟩)], [],
        [(1, strBytes "a"), (10, strBytes "b")], false⟩ 5).1 =
      ((Shared.cleanExpiredKeys ⟨[(strBytes "a", ⟨strBytes "x", some 1⟩),
        (strBytes "b", ⟨strBytes "y", some 10⟩)], [],
        [(1, strBytes "a"), (10, strBytes "b")], false⟩ 5).2.expirations.head?.map
          Prod.fst)) := by
  have hinv : DbInvariant ⟨[(strBytes "a", ⟨strBytes "x", some 1⟩),
      (strBytes "b", ⟨strBytes "y", some 10⟩)], [],
      [(1, strBytes "a"), (10, strBytes "b")], false⟩ := by
    constructor
    · intro p hp
      fin_cases hp <;> rfl
    · intro q hq t ht
      fin_cases hq
      · injection ht with h2
        subst h2
        decide
      · injection ht with h2
        subst h2
        decide
  exact ⟨⟨rfl, by decide, by decide, hinv⟩,
    clean_expired_keys_exact _ 5 rfl (by decide) (by decide) hinv⟩

/-! ## Handler dispatch claims (C4, C5, C8, C10) -/

/-- **C4 (amended).**  When a received frame is well-formed wire-wise but
fails to decode into a command, `Handler::run` does **not** write an
`Error` frame back: the `?` on `Command::decode_cmd_from_frame` propagates
the error out of `run`, the listener logs it, and the connection is
dropped.  Nothing is written and control never returns to Reading. -/
theorem decode_failure_terminates (frame : Frame) (st : State) (now : Nat)
    (e : String) (h : Command.decodeCmdFromFrame frame = .error e) :
    Handler.dispatch frame st now = .terminated e [] := by
  rw [Handler.dispatch, h]

/-- Witness for C4: `GET` with no key fails decoding with the
end-of-stream parse error and the dispatch terminates the connection
without writing. -/
theorem decode_failure_terminates_witness :
    Command.decodeCmdFromFrame (.array [.bulk (strBytes "get")]) =
      .error "协议错误: 已经不能读取更多的数据帧" ∧
    Handler.dispatch (.array [.bulk (strBytes "get")]) ⟨[], [], [], false⟩ 0 =
      .terminated "协议错误: 已经不能读取更多的数据帧" [] :=
  ⟨rfl, decode_failure_terminates (.array [.bulk (strBytes "get")])
    ⟨[], [], [], false⟩ 0 _ rfl⟩

/-- Counterexample to C4 as stated: for the wrong-arity frame
`["get"]` the dispatch result is `terminated` with an **empty** write
list — no `Error` frame goes back to the client and the handler does not
return to Reading, contradicting the claimed respond-and-continue. -/
theorem decode_failure_claim_counterexample :
    Handler.dispatch (.array [.bulk (strBytes "get")]) ⟨[], [], [], false⟩ 0 =
      .terminated "协议错误: 已经不能读取更多的数据帧" [] := rfl

/-- **C5 (the bug).**  In subscribe mode, `handle_command` matches only
`Subscribe` and `Unsubscribe`; **every** other decoded command — including
the mode-exit sentinel `exitsubscribe`, whose arm in normal dispatch is
the no-op designed to let `Subscribe::apply` return — falls into the
catch-all and is answered by `Unknown::apply`.  The sentinel therefore
does *not* return the connection to normal dispatch: it is answered with
an unknown-command error and the subscribe loop keeps running (the
`.ok` result feeds the loop; the only exits are peer close and server
shutdown). -/
theorem exitsubscribe_stays_in_subscribe_mode :
    Subscribe.handleCommand (.array [.bulk (strBytes "exitsubscribe")]) []
      [strBytes "ch"] =
      .ok ([], [strBytes "ch"], [.error (strBytes "未知命令: exitsubscribe")]) := rfl

/-- **C8 (amended).**  A frame whose (case-insensitively lowered) verb is
none of the nine known commands decodes to `Unknown` carrying the
lowercased verb, regardless of its arguments, and `Unknown::apply` writes
back `Error("未知命令: <name>")` — not the `ERR unknown command` wording
the spec quotes — and the connection stays open (dispatch returns to
Reading with the store untouched). -/
theorem unknown_command_response (w : List Nat) (args : List Frame)
    (st : State) (now : Nat) (hw : isValidUtf8 w = true)
    (hnotin : asciiLower w ∉ [strBytes "get", strBytes "ping",
      strBytes "publish", strBytes "set", strBytes "subscribe",
      strBytes "unsubscribe", strBytes "exitsubscribe", strBytes "save",
      strBytes "del"]) :
    Handler.dispatch (.array (.bulk w :: args)) st now =
      .reading st [.error (strBytes "未知命令: " ++ asciiLower w)] := by
  simp only [List.mem_cons, List.mem_singleton, not_or] at hnotin
  obtain ⟨hn1, hn2, hn3, hn4, hn5, hn6, hn7, hn8, hn9, -⟩ := hnotin
  have h1 : Parse.nextString (.bulk w :: args) = .ok (w, args) := by
    show (if isValidUtf8 w = true then Except.ok (w, args)
      else Except.error (ParseError.other "协议错误: 无效的字符串")) = _
    rw [if_pos hw]
  have h2 : Command.decodeCmdFromFrame (.array (.bulk w :: args)) =
      .ok (.unknown (asciiLower w)) := by
    simp only [Command.decodeCmdFromFrame, h1, hn1, hn2, hn3, hn4, hn5, hn6,
      hn7, hn8, hn9, if_false]
  rw [Handler.dispatch, h2]
  rfl

/-- Witness for C8: the scenario frame `["FOO", "hello"]` produces
`Error("未知命令: foo")` and the connection keeps reading. -/
theorem unknown_command_response_witness :
    isValidUtf8 (strBytes "FOO") = true ∧
    asciiLower (strBytes "FOO") ∉ [strBytes "get", strBytes "ping",
      strBytes "publish", strBytes "set", strBytes "subscribe",
      strBytes "unsubscribe", strBytes "exitsubscribe", strBytes "save",
      strBytes "del"] ∧
    Handler.dispatch (.array [.bulk (strBytes "FOO"), .bulk (strBytes "hello")])
        ⟨[], [], [], false⟩ 0 =
      .reading ⟨[], [], [], false⟩
        [.error (strBytes "未知命令: " ++ asciiLower (strBytes "FOO"))] :=
  ⟨by decide, by decide,
    unknown_command_response (strBytes "FOO") [.bulk (strBytes "hello")]
      ⟨[], [], [], false⟩ 0 (by decide) (by decide)⟩

/-- Counterexample to C8 as stated: the response to `FOO hello` is the
Chinese-language `Error("未知命令: foo")`, which is a different byte string
from the claimed `Error("ERR unknown command <quote>foo<quote>")` (byte 39
is the ASCII quote). -/
theorem unknown_command_claim_counterexample :
    Handler.dispatch (.array [.bulk (strBytes "FOO"), .bulk (strBytes "hello")])
        ⟨[], [], [], false⟩ 0 =
      .reading ⟨[], [], [], false⟩ [.error (strBytes "未知命令: foo")] ∧
    strBytes "未知命令: foo" ≠
      strBytes "ERR unknown command " ++ 39 :: (strBytes "foo" ++ [39]) :=
  ⟨rfl, by decide⟩

/-- One response frame per listed channel, each of the `unsubscribe`
shape — the `for` loop of `handle_command` writes a frame for every
channel it visits (whether or not it was subscribed). -/
theorem unsubscribeLoop_spec : ∀ (cs subs : List (List Nat)),
    (unsubscribeLoop cs subs).2.length = cs.length ∧
    ∀ fr ∈ (unsubscribeLoop cs subs).2, ∃ c r, fr = unsubscribeResponseFrame c r := by
  intro cs
  induction cs with
  | nil => intro subs; exact ⟨rfl, by intro fr h; exact absurd h (List.not_mem_nil _)⟩
  | cons c rest ih =>
    intro subs
    have hu : unsubscribeLoop (c :: rest) subs =
        ((unsubscribeLoop rest (subs.erase c)).1,
          unsubscribeResponseFrame c (subs.erase c).length ::
            (unsubscribeLoop rest (subs.erase c)).2) := by
      rw [unsubscribeLoop]
    rw [hu]
    constructor
    · simp [(ih (subs.erase c)).1]
    · intro fr hfr
      rcases List.mem_cons.mp hfr with rfl | hfr'
      · exact ⟨c, (subs.erase c).length, rfl⟩
      · exact (ih (subs.erase c)).2 fr hfr'

/-- **C10 (amended).**  In *normal* dispatch, applying UNSUBSCRIBE always
fails: `Command::apply` returns
`Err("Unsubscribe is unsupported in this context")`, which `Handler::run`
propagates, terminating the connection.  Only in subscribe mode is
UNSUBSCRIBE total: `handle_command` never fails on a decoded Unsubscribe,
emitting one `Array["unsubscribe", channel, remaining]` frame per listed
channel (all currently subscribed channels when the list is empty),
whether or not the channel was actually subscribed. -/
theorem unsubscribe_normal_vs_subscribe_mode (cs subs subscribeTo : List (List Nat))
    (st : State) (now : Nat) (frame : Frame)
    (hdec : Command.decodeCmdFromFrame frame = .ok (.unsubscribe cs)) :
    Command.apply (.unsubscribe cs) st now =
      .failed "Unsubscribe is unsupported in this context" ∧
    Subscribe.handleCommand frame subscribeTo subs =
      .ok (subscribeTo,
        (unsubscribeLoop (if cs.isEmpty then subs else cs) subs).1,
        (unsubscribeLoop (if cs.isEmpty then subs else cs) subs).2) ∧
    (unsubscribeLoop (if cs.isEmpty then subs else cs) subs).2.length =
      (if cs.isEmpty then subs else cs).length ∧
    ∀ fr ∈ (unsubscribeLoop (if cs.isEmpty then subs else cs) subs).2,
      ∃ c r, fr = unsubscribeResponseFrame c r := by
  refine ⟨rfl, ?_, (unsubscribeLoop_spec _ subs).1, (unsubscribeLoop_spec _ subs).2⟩
  rw [Subscribe.handleCommand, hdec]

/-- Witness for C10: `UNSUBSCRIBE` with no arguments while subscribed to
`a` and `b`. -/
theorem unsubscribe_normal_vs_subscribe_mode_witness :
    Command.decodeCmdFromFrame (.array [.bulk (strBytes "unsubscribe")]) =
      .ok (.unsubscribe []) ∧
    (Command.apply (.unsubscribe []) ⟨[], [], [], false⟩ 0 =
      .failed "Unsubscribe is unsupported in this context" ∧
    Subscribe.handleCommand (.array [.bulk (strBytes "unsubscribe")]) []
        [strBytes "a", strBytes "b"] =
      .ok ([],
        (unsubscribeLoop (if ([] : List (List Nat)).isEmpty then
          [strBytes "a", strBytes "b"] else []) [strBytes "a", strBytes "b"]).1,
        (unsubscribeLoop (if ([] : List (List Nat)).isEmpty then
          [strBytes "a", strBytes "b"] else []) [strBytes "a", strBytes "b"]).2) ∧
    (unsubscribeLoop (if ([] : List (List Nat)).isEmpty then
      [strBytes "a", strBytes "b"] else []) [strBytes "a", strBytes "b"]).2.length =
      (if ([] : List (List Nat)).isEmpty then
        [strBytes "a", strBytes "b"] else ([] : List (List Nat))).length ∧
    ∀ fr ∈ (unsubscribeLoop (if ([] : List (List Nat)).isEmpty then
        [strBytes "a", strBytes "b"] else []) [strBytes "a", strBytes "b"]).2,
      ∃ c r, fr = unsubscribeResponseFrame c r) :=
  ⟨rfl, unsubscribe_normal_vs_subscribe_mode [] [strBytes "a", strBytes "b"] []
    ⟨[], [], [], false⟩ 0 (.array [.bulk (strBytes "unsubscribe")]) rfl⟩

/-- Counterexample to C10 as stated ("never fails ... in any connection
state"): in normal dispatch `Command::apply` on UNSUBSCRIBE returns an
error, which terminates the connection. -/
theorem unsubscribe_claim_counterexample :
    Handler.dispatch (.array [.bulk (strBytes "unsubscribe"),
        .bulk (strBytes "a")]) ⟨[], [], [], false⟩ 0 =
      .terminated "Unsubscribe is unsupported in this context" [] := rfl

end Rustis
